import Mathlib

/-!
# Default image augmenter (`src/io/image_aug_default.cc`)

A shallow embedding of `mxnet::io::DefaultImageAugmenter` and theorems about it.

Conventions of the embedding:

* C++ `int` values are `Int`; `mshadow::index_t` values (unsigned, 32 bit) are
  `Nat` with every arithmetic step reduced modulo `4294967296`; the conversions
  between the two are `index_of_int` and `int_of_index`.
* `float` values are rationals. The affine stage is computed exactly; the jitter
  offsets of the colour stage are computed in IEEE 754 binary32, every conversion
  and operation rounding to a 24-bit significand (`float_round`).
* `common::RANDOM_ENGINE` is a stream of raw words together with a read position;
  the standard distributions consume one word per draw.
* A call of `Process` either returns or stops at a `CHECK`, at an assertion
  inside OpenCV, or at a step whose behaviour C++ leaves undefined; the
  outcome is an `Except Error _`.
* OpenCV routines whose result depends on interpolation or on colour-space
  arithmetic (`warpAffine`, `resize`, `cvtColor`) and the `libm` functions are
  parameters (`External`); only their size contract is ever assumed.
* `Init` works on C strings (the characters before the first NUL); `sscanf`, `strlen`
  and `atoi` are modelled on character lists, and the setting of the declared fields
  by the dmlc parameter library is a parameter (`ParameterLibrary`).
-/

namespace mxnet.io

/-! ## Machine integers -/

/-- Conversion of a C++ `int` to `mshadow::index_t` (declared outside this file as
`typedef unsigned index_t`, an unsigned 32-bit integer): reduction modulo `2^32`. -/
def index_of_int (z : Int) : Nat := (z % 4294967296).toNat

/-- Conversion of an `index_t` to a C++ `int`: values from `2^31` on wrap to the
negative range. -/
def int_of_index (n : Nat) : Int :=
  if n % 4294967296 < 2147483648 then ((n % 4294967296 : Nat) : Int)
  else ((n % 4294967296 : Nat) : Int) - 4294967296

/-- Subtraction of two `index_t` values (wraps modulo `2^32`). -/
def index_sub (a b : Nat) : Nat := (a % 4294967296 + 4294967296 - b % 4294967296) % 4294967296

/-- Addition of two C++ `int` values, wrapping in two's complement. -/
def int_add (a b : Int) : Int := (a + b + 2147483648) % 4294967296 - 2147483648

/-- Store of an `int` into an `unsigned char` (reduction modulo `256`). -/
def uchar_of_int (z : Int) : Nat := (z % 256).toNat

/-- OpenCV `saturate_cast<uchar>` of an integral value. -/
def saturate_uchar (z : Int) : Nat := (max 0 (min 255 z)).toNat

/-! ## Failure modes -/

/-- The ways a call can stop without returning an image. -/
inductive Error where
  /-- `CHECK` of line 220: "invalid inter_method: valid value 0,1,2,3,9,10". -/
  | invalid_inter_method
  /-- `CHECK` of line 246: "input image size smaller than max_crop_size". -/
  | smaller_than_max_crop_size
  /-- `CHECK` of line 265: "input image size smaller than input shape". -/
  | smaller_than_input_shape
  /-- An assertion inside an OpenCV routine. -/
  | cv_assert
  /-- A step whose behaviour the C++ standard leaves undefined (a distribution
  built with `a > b`, a `float` outside the range of `int` converted to `int`). -/
  | undefined_behavior
  deriving DecidableEq, Repr

/-! ## Random source -/

/-- The random engine `common::RANDOM_ENGINE`: the stream of raw words it will
produce and the number of words consumed so far. -/
structure RANDOM_ENGINE where
  seq : Nat → Nat
  pos : Nat

/-- One raw word of the engine. -/
def RANDOM_ENGINE.next (g : RANDOM_ENGINE) : Nat × RANDOM_ENGINE :=
  (g.seq g.pos, { g with pos := g.pos + 1 })

/-- The draw `std::uniform_int_distribution<T>(a, b)(*prnd)`; the standard requires
`a ≤ b` and the result lies in `[a, b]`. -/
def uniform_int_distribution (a b : Int) (_hab : a ≤ b) (g : RANDOM_ENGINE) :
    Int × RANDOM_ENGINE :=
  (a + ((g.next.1 : Int) % (b - a + 1)), g.next.2)

/-- The draw `std::uniform_real_distribution<float>(0, 1)(*prnd)`: a value of `[0, 1)`
on the 24-bit grid of a `float` mantissa. -/
def uniform_real_distribution (g : RANDOM_ENGINE) : ℚ × RANDOM_ENGINE :=
  (((g.next.1 % 16777216 : Nat) : ℚ) / 16777216, g.next.2)

/-- Conversion of a `float` to `int`: truncation toward zero, undefined outside the
range of `int`. -/
def float_to_int (q : ℚ) : Except Error Int :=
  if -2147483648 ≤ Int.tdiv q.num q.den ∧ Int.tdiv q.num q.den ≤ 2147483647 then
    .ok (Int.tdiv q.num q.den)
  else .error .undefined_behavior

/-! ## Interpolation method -/

/-- The method `DefaultImageAugmenter::GetInterMethod` (lines 159-175). -/
def GetInterMethod (inter_method old_width old_height new_width new_height : Int)
    (prnd : RANDOM_ENGINE) : Int × RANDOM_ENGINE :=
  if inter_method = 9 then
    if new_width > old_width ∧ new_height > old_height then
      (2, prnd)  -- CV_INTER_CUBIC for enlarge
    else if new_width < old_width ∧ new_height < old_height then
      (3, prnd)  -- CV_INTER_AREA for shrink
    else
      (1, prnd)  -- CV_INTER_LINEAR for others
  else if inter_method = 10 then
    uniform_int_distribution 0 4 (by decide) prnd
  else
    (inter_method, prnd)

/-! ## Images and OpenCV value types -/

/-- An 8-bit three-channel pixel (`cv::Vec3b`). -/
structure Vec3b where
  c0 : Nat
  c1 : Nat
  c2 : Nat
  deriving DecidableEq, Repr

/-- Channel read `p[k]`. -/
def Vec3b.get (p : Vec3b) (k : Nat) : Nat :=
  match k with
  | 0 => p.c0
  | 1 => p.c1
  | _ => p.c2

/-- Channel write `p[k] = v`. -/
def Vec3b.set (p : Vec3b) (k : Nat) (v : Nat) : Vec3b :=
  match k with
  | 0 => { p with c0 := v }
  | 1 => { p with c1 := v }
  | _ => { p with c2 := v }

/-- An image buffer (`cv::Mat` of type `CV_8UC3`): its size and its pixels,
`pixel i j` being the pixel of row `i` and column `j`. -/
structure Mat where
  rows : Nat
  cols : Nat
  pixel : Nat → Nat → Vec3b

/-- The sizes of a `cv::Mat` are C++ `int` values. -/
def Mat.valid (m : Mat) : Prop := m.rows ≤ 2147483647 ∧ m.cols ≤ 2147483647

instance (m : Mat) : Decidable m.valid := by
  unfold Mat.valid
  infer_instance

/-- The write `m.at<cv::Vec3b>(i, j)[k] = v`. -/
def Mat.set_channel (m : Mat) (i j k : Nat) (v : Nat) : Mat :=
  { m with pixel := fun i2 j2 =>
      if i2 = i ∧ j2 = j then (m.pixel i j).set k v else m.pixel i2 j2 }

/-- The rectangle type `cv::Rect` (integer fields). -/
structure Rect where
  x : Int
  y : Int
  width : Int
  height : Int
  deriving DecidableEq, Repr

/-- The size type `cv::Size` (integer fields). -/
structure Size where
  width : Int
  height : Int
  deriving DecidableEq, Repr

/-- The first three components of a `cv::Scalar`. -/
structure Scalar where
  v0 : Int
  v1 : Int
  v2 : Int
  deriving DecidableEq, Repr

/-- The 2x3 matrix `M` handed to `cv::warpAffine`. -/
structure Mat2x3 where
  m00 : ℚ
  m01 : ℚ
  m02 : ℚ
  m10 : ℚ
  m11 : ℚ
  m12 : ℚ

/-- The two colour conversions the augmenter asks for. -/
inductive ColorCode where
  | CV_BGR2HLS
  | CV_HLS2BGR
  deriving DecidableEq, Repr

/-- The sub-image `m(roi)` of OpenCV: `cv::Mat::Mat(const Mat&, const Rect&)` asserts
that the rectangle lies inside the image. -/
def Mat.roi (m : Mat) (r : Rect) : Except Error Mat :=
  if 0 ≤ r.x ∧ 0 ≤ r.width ∧ r.x + r.width ≤ (m.cols : Int) ∧
      0 ≤ r.y ∧ 0 ≤ r.height ∧ r.y + r.height ≤ (m.rows : Int) then
    .ok { rows := r.height.toNat
          cols := r.width.toNat
          pixel := fun i j => m.pixel (r.y.toNat + i) (r.x.toNat + j) }
  else .error .cv_assert

/-- The border pixel a `cv::Scalar` stands for in an 8-bit image. -/
def Scalar.to_pixel (s : Scalar) : Vec3b :=
  { c0 := saturate_uchar s.v0, c1 := saturate_uchar s.v1, c2 := saturate_uchar s.v2 }

/-- OpenCV `cv::copyMakeBorder` with `cv::BORDER_CONSTANT`. -/
def copyMakeBorder (src : Mat) (top bottom left right : Int) (value : Scalar) : Mat :=
  { rows := ((src.rows : Int) + top + bottom).toNat
    cols := ((src.cols : Int) + left + right).toNat
    pixel := fun i j =>
      if top ≤ (i : Int) ∧ (i : Int) < top + src.rows ∧
          left ≤ (j : Int) ∧ (j : Int) < left + src.cols then
        src.pixel (i - top.toNat) (j - left.toNat)
      else value.to_pixel }

/-- The routines the augmenter calls whose results depend on interpolation,
colour-space arithmetic or floating-point libraries. -/
structure External where
  /-- The function `cos` of `libm`. -/
  cos : ℚ → ℚ
  /-- The function `sin` of `libm`. -/
  sin : ℚ → ℚ
  /-- The constant `M_PI`. -/
  M_PI : ℚ
  /-- The call `cv::warpAffine(src, dst, M, dsize, flags, cv::BORDER_CONSTANT, value)`;
  `none` when OpenCV raises an error. -/
  warpAffine : Mat → Mat2x3 → Size → Int → Scalar → Option Mat
  /-- The call `cv::resize(src, dst, dsize, 0, 0, interpolation)`; `none` when OpenCV
  raises an error. -/
  resize : Mat → Size → Int → Option Mat
  /-- The call `cvtColor(src, dst, code)`. -/
  cvtColor : Mat → ColorCode → Mat

/-- The size contract of the OpenCV routines: `warpAffine` and `resize` return an
image of the requested size, `cvtColor` one of the size of its input. -/
def External.Lawful (ext : External) : Prop :=
  (∀ src M dsize flags value dst, ext.warpAffine src M dsize flags value = some dst →
      (dst.rows : Int) = dsize.height ∧ (dst.cols : Int) = dsize.width) ∧
  (∀ src dsize interpolation dst, ext.resize src dsize interpolation = some dst →
      (dst.rows : Int) = dsize.height ∧ (dst.cols : Int) = dsize.width) ∧
  (∀ src code, (ext.cvtColor src code).rows = src.rows ∧
      (ext.cvtColor src code).cols = src.cols)

/-! ## Parameters -/

/-- The shape `TShape data_shape` (three `index_t` components: channels, height,
width). -/
structure TShape where
  d0 : Nat
  d1 : Nat
  d2 : Nat
  deriving DecidableEq, Repr

/-- Component read `shape[i]`. -/
def TShape.get (s : TShape) (i : Nat) : Nat :=
  match i with
  | 0 => s.d0
  | 1 => s.d1
  | _ => s.d2

/-- The components of a shape are `index_t` values. -/
def TShape.valid (s : TShape) : Prop :=
  s.d0 < 4294967296 ∧ s.d1 < 4294967296 ∧ s.d2 < 4294967296

instance (s : TShape) : Decidable s.valid := by
  unfold TShape.valid
  infer_instance

/-- The parameter record `DefaultImageAugmentParam` with the defaults of lines 70-118. -/
structure DefaultImageAugmentParam where
  rand_crop : Bool := false
  crop_y_start : Int := -1
  crop_x_start : Int := -1
  max_rotate_angle : Int := 0
  max_aspect_ratio : ℚ := 0
  max_shear_ratio : ℚ := 0
  max_crop_size : Int := -1
  min_crop_size : Int := -1
  max_random_scale : ℚ := 1
  min_random_scale : ℚ := 1
  min_img_size : ℚ := 0
  max_img_size : ℚ := 10000000000
  random_h : Int := 0
  random_s : Int := 0
  random_l : Int := 0
  rotate : Int := -1
  fill_value : Int := 255
  fill_value_r : Int := -1
  fill_value_g : Int := -1
  fill_value_b : Int := -1
  inter_method : Int := 1
  pad : Int := 0
  data_shape : TShape

/-- The state of a `DefaultImageAugmenter`: its parameters and its list of rotation
angles (`temp_` is scratch space overwritten before every read, `rotateM_` is never
used). -/
structure DefaultImageAugmenter where
  param_ : DefaultImageAugmentParam
  rotate_list_ : List Int := []

/-! ## The affine stage (lines 181-235) -/

/-- The trigger of the affine stage (lines 182-185). -/
def DefaultImageAugmenter.affine_enabled (aug : DefaultImageAugmenter) : Prop :=
  aug.param_.max_rotate_angle > 0 ∨ aug.param_.max_shear_ratio > 0
    ∨ aug.param_.rotate > 0 ∨ aug.rotate_list_.length > 0 ∨ aug.param_.max_random_scale ≠ 1
    ∨ aug.param_.min_random_scale ≠ 1 ∨ aug.param_.max_aspect_ratio ≠ 0
    ∨ aug.param_.max_img_size ≠ 10000000000 ∨ aug.param_.min_img_size ≠ 0

instance (aug : DefaultImageAugmenter) : Decidable aug.affine_enabled := by
  unfold DefaultImageAugmenter.affine_enabled
  infer_instance

/-- The rotation angle (lines 190-195): a draw from `[-max_rotate_angle,
max_rotate_angle]`, replaced by `rotate` when that is positive, replaced by a drawn
element of the rotate list when the list is not empty. -/
def DefaultImageAugmenter.rotation_angle (aug : DefaultImageAugmenter)
    (hang : -aug.param_.max_rotate_angle ≤ aug.param_.max_rotate_angle)
    (prnd : RANDOM_ENGINE) : Int × RANDOM_ENGINE :=
  let d := uniform_int_distribution (-aug.param_.max_rotate_angle)
    aug.param_.max_rotate_angle hang prnd
  let angle := if aug.param_.rotate > 0 then aug.param_.rotate else d.1
  if hlist : aug.rotate_list_.length > 0 then
    let e := uniform_int_distribution 0 ((aug.rotate_list_.length : Int) - 1)
      (by omega) d.2
    (aug.rotate_list_.getD e.1.toNat 0, e.2)
  else (angle, d.2)

/-- The height and width scale factors `(hs, ws)` (lines 204-205). -/
def aspect_factors (scale ratio : ℚ) : ℚ × ℚ :=
  (2 * scale / (1 + ratio), ratio * (2 * scale / (1 + ratio)))

/-- The new width or height of the canvas (lines 207-210) for a source extent `n`. -/
def canvas_size (param_ : DefaultImageAugmentParam) (scale : ℚ) (n : Nat) : ℚ :=
  max param_.min_img_size (min param_.max_img_size (scale * n))

/-- The matrix `M` (lines 211-219). -/
def affine_matrix (s a b hs ws : ℚ) (cols rows : Nat) (new_width new_height : ℚ) : Mat2x3 :=
  let m00 := hs * a - s * b * ws
  let m10 := -b * ws
  let m01 := hs * b + s * a * ws
  let m11 := a * ws
  let ori_center_width := m00 * cols + m01 * rows
  let ori_center_height := m10 * cols + m11 * rows
  { m00 := m00, m01 := m01, m02 := (new_width - ori_center_width) / 2
    m10 := m10, m11 := m11, m12 := (new_height - ori_center_height) / 2 }

/-- The fill colour fallback (lines 225-227), which rewrites the stored parameters. -/
def resolve_fill (param_ : DefaultImageAugmentParam) : DefaultImageAugmentParam :=
  if param_.fill_value_r < 0 ∨ param_.fill_value_g < 0 ∨ param_.fill_value_b < 0 then
    { param_ with fill_value_r := param_.fill_value, fill_value_g := param_.fill_value
                  fill_value_b := param_.fill_value }
  else param_

/-- The colour `cv::Scalar(fill_value_b, fill_value_g, fill_value_r)`. -/
def fill_scalar (param_ : DefaultImageAugmentParam) : Scalar :=
  { v0 := param_.fill_value_b, v1 := param_.fill_value_g, v2 := param_.fill_value_r }

/-- The `CHECK` of lines 220-221 on `inter_method`. -/
def inter_method_ok (inter_method : Int) : Prop :=
  (inter_method ≥ 1 ∧ inter_method ≤ 4) ∨ (inter_method ≥ 9 ∧ inter_method ≤ 10)

instance (m : Int) : Decidable (inter_method_ok m) := by
  unfold inter_method_ok
  infer_instance

/-- The body of the affine branch (lines 186-232): the warped image, the augmenter
with its fill colour resolved, and the random engine after the draws. -/
def DefaultImageAugmenter.affine_stage (ext : External) (aug : DefaultImageAugmenter)
    (src : Mat) (prnd : RANDOM_ENGINE) :
    Except Error (Mat × DefaultImageAugmenter × RANDOM_ENGINE) :=
  let d1 := uniform_real_distribution prnd
  -- shear
  let s := d1.1 * aug.param_.max_shear_ratio * 2 - aug.param_.max_shear_ratio
  -- rotate
  if hang : -aug.param_.max_rotate_angle ≤ aug.param_.max_rotate_angle then
    let d2 := aug.rotation_angle hang d1.2
    let a := ext.cos ((d2.1 : ℚ) / 180 * ext.M_PI)
    let b := ext.sin ((d2.1 : ℚ) / 180 * ext.M_PI)
    -- scale
    let d3 := uniform_real_distribution d2.2
    let scale := d3.1 * (aug.param_.max_random_scale - aug.param_.min_random_scale)
      + aug.param_.min_random_scale
    -- aspect ratio
    let d4 := uniform_real_distribution d3.2
    let ratio := d4.1 * aug.param_.max_aspect_ratio * 2 - aug.param_.max_aspect_ratio + 1
    let hs := (aspect_factors scale ratio).1
    let ws := (aspect_factors scale ratio).2
    -- new width and height
    let new_width := canvas_size aug.param_ scale src.cols
    let new_height := canvas_size aug.param_ scale src.rows
    let M := affine_matrix s a b hs ws src.cols src.rows new_width new_height
    if inter_method_ok aug.param_.inter_method then
      match float_to_int new_width, float_to_int new_height with
      | .ok nw, .ok nh =>
        let d5 := GetInterMethod aug.param_.inter_method src.cols src.rows nw nh d4.2
        let param2 := resolve_fill aug.param_
        match ext.warpAffine src M { width := nw, height := nh } d5.1 (fill_scalar param2) with
        | some temp_ => .ok (temp_, { aug with param_ := param2 }, d5.2)
        | none => .error .cv_assert
      | _, _ => .error .undefined_behavior
    else .error .invalid_inter_method
  else .error .undefined_behavior

/-! ## The padding stage (lines 237-242) -/

/-- The padding stage: a border of `pad` pixels of the colour currently stored in
`fill_value_b`, `fill_value_g`, `fill_value_r`. -/
def DefaultImageAugmenter.pad_stage (aug : DefaultImageAugmenter) (res : Mat) : Mat :=
  if aug.param_.pad > 0 then
    copyMakeBorder res aug.param_.pad aug.param_.pad aug.param_.pad aug.param_.pad
      (fill_scalar aug.param_)
  else res

/-! ## The crop stage (lines 244-278) -/

/-- What the range branch of the crop stage chooses before it extracts: the drawn
crop size `rand_crop_size` (an `index_t`), the rectangle `roi`, and the random
engine after the draws. -/
structure CropChoice where
  size : Nat
  rect : Rect
  prnd : RANDOM_ENGINE

/-- The configured-range test of line 245. -/
def DefaultImageAugmentParam.range_crop (param_ : DefaultImageAugmentParam) : Prop :=
  param_.max_crop_size ≠ -1 ∨ param_.min_crop_size ≠ -1

instance (param_ : DefaultImageAugmentParam) : Decidable param_.range_crop := by
  unfold DefaultImageAugmentParam.range_crop
  infer_instance

/-- The `CHECK` of lines 246-247. -/
def range_crop_check (param_ : DefaultImageAugmentParam) (res : Mat) : Prop :=
  (res.cols : Int) ≥ param_.max_crop_size ∧ (res.rows : Int) ≥ param_.max_crop_size
    ∧ param_.max_crop_size ≥ param_.min_crop_size

instance (param_ : DefaultImageAugmentParam) (res : Mat) :
    Decidable (range_crop_check param_ res) := by
  unfold range_crop_check
  infer_instance

/-- The `CHECK` of lines 265-266 (both sides are `index_t`). -/
def exact_crop_check (param_ : DefaultImageAugmentParam) (res : Mat) : Prop :=
  index_of_int res.rows ≥ param_.data_shape.get 1
    ∧ index_of_int res.cols ≥ param_.data_shape.get 2

instance (param_ : DefaultImageAugmentParam) (res : Mat) :
    Decidable (exact_crop_check param_ res) := by
  unfold exact_crop_check
  infer_instance

/-- The offsets of lines 253-258 and 270-275 from the two `index_t` slacks `y`
and `x`: drawn from `[0, y]` and `[0, x]` when `rand_crop` is set, halved otherwise. -/
def crop_offsets (param_ : DefaultImageAugmentParam) (y x : Nat) (prnd : RANDOM_ENGINE) :
    (Nat × Nat) × RANDOM_ENGINE :=
  if param_.rand_crop ≠ false then
    let dy := uniform_int_distribution 0 (y : Int) (by omega) prnd
    let dx := uniform_int_distribution 0 (x : Int) (by omega) dy.2
    ((dy.1.toNat, dx.1.toNat), dx.2)
  else ((y / 2, x / 2), prnd)

/-- The crop size and rectangle of the range branch (lines 249-259). -/
def range_crop_choice (param_ : DefaultImageAugmentParam) (res : Mat)
    (prnd : RANDOM_ENGINE) : Except Error CropChoice :=
  if hab : ((index_of_int param_.min_crop_size : Nat) : Int)
      ≤ ((index_of_int param_.max_crop_size : Nat) : Int) then
    let d := uniform_int_distribution (index_of_int param_.min_crop_size)
      (index_of_int param_.max_crop_size) hab prnd
    let rand_crop_size := d.1.toNat
    let y := index_sub (index_of_int res.rows) rand_crop_size
    let x := index_sub (index_of_int res.cols) rand_crop_size
    let o := crop_offsets param_ y x d.2
    .ok { size := rand_crop_size
          rect := { x := int_of_index o.1.2, y := int_of_index o.1.1
                    width := int_of_index rand_crop_size
                    height := int_of_index rand_crop_size }
          prnd := o.2 }
  else .error .undefined_behavior

/-- The rectangle of the exact branch (lines 268-276) and the random engine after
its draws. -/
def exact_crop_choice (param_ : DefaultImageAugmentParam) (res : Mat)
    (prnd : RANDOM_ENGINE) : Rect × RANDOM_ENGINE :=
  let y := index_sub (index_of_int res.rows) (param_.data_shape.get 1)
  let x := index_sub (index_of_int res.cols) (param_.data_shape.get 2)
  let o := crop_offsets param_ y x prnd
  ({ x := int_of_index o.1.2, y := int_of_index o.1.1
     width := int_of_index (param_.data_shape.get 2)
     height := int_of_index (param_.data_shape.get 1) }, o.2)

/-- The crop stage (lines 244-278). -/
def DefaultImageAugmenter.crop_stage (ext : External) (aug : DefaultImageAugmenter)
    (res : Mat) (prnd : RANDOM_ENGINE) : Except Error (Mat × RANDOM_ENGINE) :=
  if aug.param_.range_crop then
    if range_crop_check aug.param_ res then
      match range_crop_choice aug.param_ res prnd with
      | .error e => .error e
      | .ok c =>
        let d := GetInterMethod aug.param_.inter_method (int_of_index c.size)
          (int_of_index c.size) (int_of_index (aug.param_.data_shape.get 2))
          (int_of_index (aug.param_.data_shape.get 1)) c.prnd
        match res.roi c.rect with
        | .error e => .error e
        | .ok sub =>
          match ext.resize sub { width := int_of_index (aug.param_.data_shape.get 2)
                                 height := int_of_index (aug.param_.data_shape.get 1) } d.1 with
          | none => .error .cv_assert
          | some out => .ok (out, d.2)
    else .error .smaller_than_max_crop_size
  else
    if exact_crop_check aug.param_ res then
      match res.roi (exact_crop_choice aug.param_ res prnd).1 with
      | .error e => .error e
      | .ok out => .ok (out, (exact_crop_choice aug.param_ res prnd).2)
    else .error .smaller_than_input_shape

/-! ## The colour stage (lines 280-300) -/

/-- A three-element `int` array such as `int temp[3] = {h, l, s}`. -/
def int_array3 (a0 a1 a2 : Int) (k : Nat) : Int :=
  match k with
  | 0 => a0
  | 1 => a1
  | _ => a2

/-- The value written back by the body of the innermost loop (lines 292-295) for an
original channel value `v0`, the offset `temp[k]` and the bound `limit[k]`: the `int`
addition, the clamp, and the store into the `unsigned char` channel. -/
def jitter_value (temp_k limit_k : Int) (v0 : Nat) : Nat :=
  let v : Int := (v0 : Int)
  let v := int_add v temp_k
  let v := max 0 (min limit_k v)
  uchar_of_int v

/-- The body of the innermost loop (lines 292-295) for pixel `(i, j)` and channel `k`. -/
def jitter_channel (temp limit : Nat → Int) (i j k : Nat) (res : Mat) : Mat :=
  res.set_channel i j k (jitter_value (temp k) (limit k) ((res.pixel i j).get k))

/-- The three nested loops of lines 289-298. -/
def color_loop (temp limit : Nat → Int) (res : Mat) : Mat :=
  (List.range res.rows).foldl (fun r i =>
    (List.range res.cols).foldl (fun r j =>
      (List.range 3).foldl (fun r k => jitter_channel temp limit i j k r) r) r) res

/-- The loops run with the arrays of lines 287-288 for offsets `h`, `s`, `l`. -/
def color_jitter (h s l : Int) (res : Mat) : Mat :=
  color_loop (int_array3 h l s) (int_array3 180 255 255) res

/-- The trigger of the colour stage (line 281). -/
def DefaultImageAugmentParam.color_enabled (param_ : DefaultImageAugmentParam) : Prop :=
  param_.random_h ≠ 0 ∨ param_.random_s ≠ 0 ∨ param_.random_l ≠ 0

instance (param_ : DefaultImageAugmentParam) : Decidable param_.color_enabled := by
  unfold DefaultImageAugmentParam.color_enabled
  infer_instance

/-- Rounding of a rational to an integer: to nearest, ties to the even neighbour. -/
def round_half_even (m : ℚ) : Int :=
  if m - ⌊m⌋ < 1 / 2 then ⌊m⌋
  else if 1 / 2 < m - ⌊m⌋ then ⌊m⌋ + 1
  else if ⌊m⌋ % 2 = 0 then ⌊m⌋
  else ⌊m⌋ + 1

/-- The unit in the last place of the binary32 binade of `x`: `2 ^ (e - 23)` where
`2 ^ e ≤ |x| < 2 ^ (e + 1)`. -/
def float_ulp (x : ℚ) : ℚ := 2 ^ (Int.log 2 |x| - 23)

/-- Rounding of an exact value to a `float` (IEEE 754 binary32: 24-bit significand,
round to nearest, ties to even). The exponent range of binary32 is not modelled: for
a draw on the 24-bit grid and an `int` `random_x` the values rounded in the colour
stage are 0 or of magnitude between `2 ^ (-48)` and `2 ^ 33`, inside the normal range
of binary32. -/
def float_round (x : ℚ) : ℚ :=
  if x = 0 then 0 else (round_half_even (x / float_ulp x) : ℚ) * float_ulp x

/-- Conversion of an `int` to `float`. -/
def float_of_int (z : Int) : ℚ := float_round (z : ℚ)

/-- Product of two `float` values. -/
def float_mul (a b : ℚ) : ℚ := float_round (a * b)

/-- Difference of two `float` values. -/
def float_sub (a b : ℚ) : ℚ := float_round (a - b)

/-- The `float` value of `rand_uniform(*prnd) * random_x * 2 - random_x` (lines
284-286): `random_x` and `2` are converted to `float` and every operation rounds. -/
def jitter_float (u : ℚ) (random_x : Int) : ℚ :=
  float_sub (float_mul (float_mul u (float_of_int random_x)) (float_of_int 2))
    (float_of_int random_x)

/-- The offset `rand_uniform(*prnd) * random_x * 2 - random_x` converted to `int`
(lines 284-286). -/
def jitter_offset (u : ℚ) (random_x : Int) : Except Error Int :=
  float_to_int (jitter_float u random_x)

/-- The colour stage (lines 280-300). -/
def DefaultImageAugmenter.color_stage (ext : External) (aug : DefaultImageAugmenter)
    (res : Mat) (prnd : RANDOM_ENGINE) : Except Error (Mat × RANDOM_ENGINE) :=
  if aug.param_.color_enabled then
    let hls := ext.cvtColor res .CV_BGR2HLS
    let d1 := uniform_real_distribution prnd
    let d2 := uniform_real_distribution d1.2
    let d3 := uniform_real_distribution d2.2
    match jitter_offset d1.1 aug.param_.random_h, jitter_offset d2.1 aug.param_.random_s,
        jitter_offset d3.1 aug.param_.random_l with
    | .ok h, .ok s, .ok l => .ok (ext.cvtColor (color_jitter h s l hls) .CV_HLS2BGR, d3.2)
    | _, _, _ => .error .undefined_behavior
  else .ok (res, prnd)

/-! ## `Process` (lines 176-302) -/

/-- The working image handed to the crop stage: the source after the affine stage
(lines 181-235) and the padding stage (lines 237-242), with the augmenter and the
random engine as they stand then. -/
def DefaultImageAugmenter.working_image (ext : External) (aug : DefaultImageAugmenter)
    (src : Mat) (prnd : RANDOM_ENGINE) :
    Except Error (Mat × DefaultImageAugmenter × RANDOM_ENGINE) :=
  -- normal augmentation by affine transformation.
  match (if aug.affine_enabled then aug.affine_stage ext src prnd
         else .ok (src, aug, prnd)) with
  | .error e => .error e
  | .ok a =>
    -- pad logic
    .ok (a.2.1.pad_stage a.1, a.2.1, a.2.2)

/-- The method `DefaultImageAugmenter::Process`: the returned image, the augmenter
after the call (the affine stage rewrites the stored fill colour) and the random
engine after the call. -/
def DefaultImageAugmenter.Process (ext : External) (aug : DefaultImageAugmenter)
    (src : Mat) (prnd : RANDOM_ENGINE) :
    Except Error (Mat × DefaultImageAugmenter × RANDOM_ENGINE) :=
  match aug.working_image ext src prnd with
  | .error e => .error e
  | .ok w =>
    -- crop logic
    match w.2.1.crop_stage ext w.1 w.2.2 with
    | .error e => .error e
    | .ok c =>
      -- color space augmentation
      match w.2.1.color_stage ext c.1 c.2 with
      | .error e => .error e
      | .ok r => .ok (r.1, w.2.1, r.2)

/-! ## A reference instance of the external routines

Used to run the definitions on concrete inputs. -/

/-- Nearest-neighbour resampling to the requested size; fails on an empty source or
a size that is not positive, as `cv::resize` does. -/
def nearest_resize (src : Mat) (dsize : Size) : Option Mat :=
  if 0 < src.rows ∧ 0 < src.cols ∧ 0 < dsize.width ∧ 0 < dsize.height then
    some { rows := dsize.height.toNat
           cols := dsize.width.toNat
           pixel := fun i j =>
             src.pixel (i * src.rows / dsize.height.toNat) (j * src.cols / dsize.width.toNat) }
  else none

/-- An instance of the external routines: nearest-neighbour resampling, a warp that
resamples without moving content, the identity as colour conversion and constant
trigonometric functions. -/
def reference_external : External where
  cos := fun _ => 1
  sin := fun _ => 0
  M_PI := 355 / 113
  warpAffine := fun src _ dsize _ _ => nearest_resize src dsize
  resize := fun src dsize _ => nearest_resize src dsize
  cvtColor := fun src _ => src

/-- A test image: the pixel of row `i` and column `j` holds `(i, j, i + j)` reduced
to 8 bits. -/
def test_image (rows cols : Nat) : Mat :=
  { rows := rows, cols := cols
    pixel := fun i j => { c0 := i % 256, c1 := j % 256, c2 := (i + j) % 256 } }

/-- A random engine whose raw words are `k, k + 1, k + 2, ...`. -/
def counting_engine (k : Nat) : RANDOM_ENGINE := { seq := fun n => k + n, pos := 0 }

/-! ## `Init` (lines 139-154) -/

/-- The ways `Init` can stop without configuring the augmenter. -/
inductive InitError where
  /-- The parameter library rejects the declared fields (a value that does not
  parse, `data_shape` missing or not of three non-zero components). -/
  | param_error
  /-- A step whose behaviour C leaves undefined: `buf` read before anything was
  stored in it, a token of 128 characters or more written into `char buf[128]`, a
  number outside the range of `int` handed to `atoi`. -/
  | undefined_behavior
  deriving DecidableEq, Repr

/-- The C string `s.c_str()` as `strlen`, `strcmp` and `sscanf` see it: the characters
before the first NUL. -/
def c_str (s : String) : List Char := s.data.takeWhile (fun c => c ≠ Char.ofNat 0)

/-- The names of the fields declared in lines 71-117. -/
def field_names : List String :=
  ["rand_crop", "crop_y_start", "crop_x_start", "max_rotate_angle", "max_aspect_ratio",
   "max_shear_ratio", "max_crop_size", "min_crop_size", "max_random_scale",
   "min_random_scale", "max_img_size", "min_img_size", "random_h", "random_s", "random_l",
   "rotate", "fill_value", "fill_value_r", "fill_value_g", "fill_value_b", "data_shape",
   "inter_method", "pad"]

/-- The part of the dmlc parameter library that turns the textual values of the
declared fields into a parameter record (defaults for the fields that are not
named); `none` when the library throws. -/
structure ParameterLibrary where
  set_fields : List (String × String) → Option DefaultImageAugmentParam

/-- The call `param_.InitAllowUnknown(kwargs)` of the dmlc parameter library: the
pairs whose key is a declared field are handed to the field setters, the other pairs
are returned in their order. -/
def InitAllowUnknown (lib : ParameterLibrary) (kwargs : List (String × String)) :
    Option (DefaultImageAugmentParam × List (String × String)) :=
  match lib.set_fields (kwargs.filter (fun kv => kv.1 ∈ field_names)) with
  | none => none
  | some p => some (p, kwargs.filter (fun kv => kv.1 ∉ field_names))

/-- The C function `isspace` in the "C" locale. -/
def is_space (c : Char) : Bool :=
  c = Char.ofNat 32 ∨ (9 ≤ c.toNat ∧ c.toNat ≤ 13)

/-- The value of a decimal digit character. -/
def digit_value (c : Char) : Nat := c.toNat - 48

/-- The C function `atoi`: leading white space is skipped, an optional sign is read,
then the longest run of decimal digits; `none` when the number is outside the range
of `int` (undefined behaviour). -/
def atoi (s : List Char) : Option Int :=
  let t := s.dropWhile is_space
  let negative := t.head? = some '-'
  let body := if t.head? = some '-' ∨ t.head? = some '+' then t.tail else t
  let n : Nat := (body.takeWhile Char.isDigit).foldl (fun acc c => 10 * acc + digit_value c) 0
  let v : Int := if negative then -(n : Int) else (n : Int)
  if -2147483648 ≤ v ∧ v ≤ 2147483647 then some v else none

/-- The call `sscanf(val, "%[^,]", buf)`: the longest non-empty run of characters
other than a comma is stored in `buf`; when `val` starts with a comma nothing matches
and `buf` keeps its content; `none` when the run does not fit `char buf[128]`. The
content of `buf` is `none` while nothing has been stored in it. -/
def sscanf_until_comma (val : List Char) (buf : Option (List Char)) :
    Option (Option (List Char)) :=
  if val.takeWhile (fun c => c ≠ ',') = [] then some buf
  else if (val.takeWhile (fun c => c ≠ ',')).length < 128 then
    some (some (val.takeWhile (fun c => c ≠ ',')))
  else none

/-- The loop of lines 147-151 on the rest `val` of the value, the content of `buf`
and the list built so far; every round consumes at least one character, so that
`fuel = val.length` rounds are enough. -/
def rotate_list_loop : Nat → List Char → Option (List Char) → List Int →
    Except InitError (List Int)
  | 0, _, _, rotate_list_ => .ok rotate_list_
  | fuel + 1, val, buf, rotate_list_ =>
    if val = [] then .ok rotate_list_
    else
      match sscanf_until_comma val buf with
      | some (some b) =>
        match atoi b with
        | some angle => rotate_list_loop fuel (val.drop (b.length + 1)) (some b)
            (rotate_list_ ++ [angle])
        | none => .error .undefined_behavior
      | _ => .error .undefined_behavior

/-- The body of the `if` of line 143 for one value: lines 144-151. -/
def parse_rotate_list (value : String) (rotate_list_ : List Int) :
    Except InitError (List Int) :=
  rotate_list_loop (c_str value).length (c_str value) none rotate_list_

/-- The loop of lines 142-153 over the pairs left over by the parameter library. -/
def init_rotate_list : List (String × String) → List Int → Except InitError (List Int)
  | [], rotate_list_ => .ok rotate_list_
  | kv :: kwargs_left, rotate_list_ =>
    if c_str kv.1 = "rotate_list".data then
      match parse_rotate_list kv.2 rotate_list_ with
      | .ok l => init_rotate_list kwargs_left l
      | .error e => .error e
    else init_rotate_list kwargs_left rotate_list_

/-- The method `DefaultImageAugmenter::Init` (lines 139-154). -/
def DefaultImageAugmenter.Init (lib : ParameterLibrary) (aug : DefaultImageAugmenter)
    (kwargs : List (String × String)) : Except InitError DefaultImageAugmenter :=
  match InitAllowUnknown lib kwargs with
  | none => .error .param_error
  | some r =>
    match init_rotate_list r.2 aug.rotate_list_ with
    | .ok l => .ok { param_ := r.1, rotate_list_ := l }
    | .error e => .error e

/-- The decimal rendering of an integer: a minus sign for a negative number, then the
decimal digits of its absolute value. -/
def decimal_text (z : Int) : List Char :=
  if z < 0 then '-' :: Nat.toDigits 10 z.natAbs else Nat.toDigits 10 z.natAbs

/-- Texts joined by single commas. -/
def comma_join : List (List Char) → List Char
  | [] => []
  | [t] => t
  | t :: u :: ts => t ++ ',' :: comma_join (u :: ts)

/-- The text of a list of angles: the decimal renderings joined by single commas. -/
def rotate_list_text (angles : List Int) : String :=
  String.mk (comma_join (angles.map decimal_text))

/-- A parameter library for running the definitions: it ignores the values and
returns the defaults with `data_shape = (3, 2, 2)`. -/
def reference_library : ParameterLibrary where
  set_fields := fun _ => some { data_shape := { d0 := 3, d1 := 2, d2 := 2 } }


/-! ## Lemmas on machine integers and draws -/

theorem uniform_int_distribution_range (a b : Int) (hab : a ≤ b) (g : RANDOM_ENGINE) :
    a ≤ (uniform_int_distribution a b hab g).1 ∧ (uniform_int_distribution a b hab g).1 ≤ b := by
  have hpos : (0 : Int) < b - a + 1 := by omega
  have h1 := Int.emod_nonneg (g.next.1 : Int) (ne_of_gt hpos)
  have h2 := Int.emod_lt_of_pos (g.next.1 : Int) hpos
  simp only [uniform_int_distribution]
  constructor <;> omega

theorem uniform_int_distribution_engine (a b : Int) (hab : a ≤ b) (g : RANDOM_ENGINE) :
    (uniform_int_distribution a b hab g).2 = { g with pos := g.pos + 1 } := rfl

theorem index_of_int_of_nonneg (z : Int) (h0 : 0 ≤ z) (h1 : z < 4294967296) :
    ((index_of_int z : Nat) : Int) = z := by
  unfold index_of_int
  rw [Int.emod_eq_of_lt h0 h1]
  exact Int.toNat_of_nonneg h0

theorem index_of_int_natCast (n : Nat) (h : n ≤ 2147483647) : index_of_int (n : Int) = n := by
  have h2 := index_of_int_of_nonneg (n : Int) (by omega) (by omega)
  exact_mod_cast h2

theorem int_of_index_small (n : Nat) (h : n ≤ 2147483647) : int_of_index n = (n : Int) := by
  unfold int_of_index
  have hm : n % 4294967296 = n := Nat.mod_eq_of_lt (by omega)
  rw [hm]
  simp only [ite_eq_left_iff, not_lt]
  intro hc
  omega

theorem int_of_index_nonneg (n : Nat) (hn : n < 4294967296) (z : Nat)
    (h : (z : Int) = int_of_index n) : z = n := by
  unfold int_of_index at h
  have hm : n % 4294967296 = n := Nat.mod_eq_of_lt hn
  rw [hm] at h
  split at h <;> omega

theorem index_sub_of_le (a b : Nat) (hb : b ≤ a) (ha : a < 4294967296) :
    index_sub a b = a - b := by
  unfold index_sub
  have h1 : a % 4294967296 = a := Nat.mod_eq_of_lt ha
  have h2 : b % 4294967296 = b := Nat.mod_eq_of_lt (by omega)
  rw [h1, h2]
  omega

theorem int_add_exact (a b : Int) (hlo : -2147483648 ≤ a + b) (hhi : a + b ≤ 2147483647) :
    int_add a b = a + b := by
  unfold int_add
  omega

/-! ## Lemmas on the colour loops -/

theorem jitter_value_range (t limit : Int) (v : Nat) (h0 : 0 ≤ limit) (h1 : limit ≤ 255) :
    (0 : Int) ≤ (jitter_value t limit v : Nat) ∧ ((jitter_value t limit v : Nat) : Int) ≤ limit := by
  simp only [jitter_value, uchar_of_int, max_def, min_def]
  split_ifs <;> omega

theorem jitter_value_clamp (t limit : Int) (v : Nat) (h0 : 0 ≤ limit) (h1 : limit ≤ 255)
    (hlo : -2147483648 ≤ (v : Int) + t) (hhi : (v : Int) + t ≤ 2147483647) :
    ((jitter_value t limit v : Nat) : Int) = max 0 (min limit ((v : Int) + t)) := by
  simp only [jitter_value, uchar_of_int, int_add_exact _ _ hlo hhi, max_def, min_def]
  split_ifs <;> omega

theorem limit_array_range (k : Nat) :
    0 ≤ int_array3 180 255 255 k ∧ int_array3 180 255 255 k ≤ 255 := by
  unfold int_array3
  split <;> decide

theorem channel_loop_eq (temp limit : Nat → Int) (i j : Nat) (r : Mat) :
    (List.range 3).foldl (fun r k => jitter_channel temp limit i j k r) r
      = { rows := r.rows, cols := r.cols
          pixel := fun i2 j2 =>
            if i2 = i ∧ j2 = j then
              { c0 := jitter_value (temp 0) (limit 0) (r.pixel i j).c0
                c1 := jitter_value (temp 1) (limit 1) (r.pixel i j).c1
                c2 := jitter_value (temp 2) (limit 2) (r.pixel i j).c2 }
            else r.pixel i2 j2 } := by
  have h3 : List.range 3 = [0, 1, 2] := by decide
  rw [h3]
  simp only [List.foldl, jitter_channel, Mat.set_channel, Vec3b.set, Vec3b.get]
  congr 1
  funext i2 j2
  by_cases h : i2 = i ∧ j2 = j
  · simp [h]
  · simp [h]

theorem column_loop_eq (temp limit : Nat → Int) (i : Nat) (n : Nat) (r : Mat) :
    (List.range n).foldl (fun r j =>
        (List.range 3).foldl (fun r k => jitter_channel temp limit i j k r) r) r
      = { rows := r.rows, cols := r.cols
          pixel := fun i2 j2 =>
            if i2 = i ∧ j2 < n then
              { c0 := jitter_value (temp 0) (limit 0) (r.pixel i2 j2).c0
                c1 := jitter_value (temp 1) (limit 1) (r.pixel i2 j2).c1
                c2 := jitter_value (temp 2) (limit 2) (r.pixel i2 j2).c2 }
            else r.pixel i2 j2 } := by
  induction n with
  | zero => simp
  | succ n ih =>
    rw [List.range_succ n, List.foldl_append, ih]
    simp only [List.foldl_cons, List.foldl_nil]
    rw [channel_loop_eq]
    congr 1
    funext i2 j2
    by_cases hi : i2 = i
    · subst hi
      rcases Nat.lt_trichotomy j2 n with hlt | heq | hgt
      · have h1 : ¬ j2 = n := by omega
        have h2 : j2 < n + 1 := by omega
        simp [hlt, h1, h2]
      · subst heq
        simp
      · have h1 : ¬ j2 = n := by omega
        have h2 : ¬ j2 < n + 1 := by omega
        have h3 : ¬ j2 < n := by omega
        simp [h1, h2, h3]
    · simp [hi]

theorem color_loop_eq (temp limit : Nat → Int) (res : Mat) :
    color_loop temp limit res
      = { rows := res.rows, cols := res.cols
          pixel := fun i j =>
            if i < res.rows ∧ j < res.cols then
              { c0 := jitter_value (temp 0) (limit 0) (res.pixel i j).c0
                c1 := jitter_value (temp 1) (limit 1) (res.pixel i j).c1
                c2 := jitter_value (temp 2) (limit 2) (res.pixel i j).c2 }
            else res.pixel i j } := by
  unfold color_loop
  have key : ∀ (n m : Nat) (r : Mat),
      (List.range m).foldl (fun r i =>
        (List.range n).foldl (fun r j =>
          (List.range 3).foldl (fun r k => jitter_channel temp limit i j k r) r) r) r
      = { rows := r.rows, cols := r.cols
          pixel := fun i j =>
            if i < m ∧ j < n then
              { c0 := jitter_value (temp 0) (limit 0) (r.pixel i j).c0
                c1 := jitter_value (temp 1) (limit 1) (r.pixel i j).c1
                c2 := jitter_value (temp 2) (limit 2) (r.pixel i j).c2 }
            else r.pixel i j } := by
    intro n m
    induction m with
    | zero => intro r; simp
    | succ m ih =>
      intro r
      rw [List.range_succ m, List.foldl_append, ih]
      simp only [List.foldl_cons, List.foldl_nil]
      rw [column_loop_eq]
      congr 1
      funext i j
      by_cases hj : j < n
      · rcases Nat.lt_trichotomy i m with hlt | heq | hgt
        · have h1 : ¬ i = m := by omega
          have h2 : i < m + 1 := by omega
          simp [hlt, h1, h2, hj]
        · subst heq
          simp [hj]
        · have h1 : ¬ i = m := by omega
          have h2 : ¬ i < m + 1 := by omega
          have h3 : ¬ i < m := by omega
          simp [h1, h2, h3]
      · simp [hj]
  exact key res.cols res.rows res

theorem color_loop_rows (temp limit : Nat → Int) (res : Mat) :
    (color_loop temp limit res).rows = res.rows := by
  rw [color_loop_eq]

theorem color_loop_cols (temp limit : Nat → Int) (res : Mat) :
    (color_loop temp limit res).cols = res.cols := by
  rw [color_loop_eq]

theorem color_loop_channel (temp limit : Nat → Int) (res : Mat) (i j k : Nat)
    (hi : i < res.rows) (hj : j < res.cols) (hk : k < 3) :
    ((color_loop temp limit res).pixel i j).get k
      = jitter_value (temp k) (limit k) ((res.pixel i j).get k) := by
  rw [color_loop_eq]
  simp only [hi, hj, and_self, if_true]
  interval_cases k <;> rfl

theorem color_jitter_size (h s l : Int) (res : Mat) :
    (color_jitter h s l res).rows = res.rows ∧ (color_jitter h s l res).cols = res.cols := by
  unfold color_jitter
  exact ⟨color_loop_rows _ _ _, color_loop_cols _ _ _⟩

/-! ## Lemmas on the crop stage -/

theorem crop_offsets_le (param_ : DefaultImageAugmentParam) (y x : Nat) (prnd : RANDOM_ENGINE) :
    (crop_offsets param_ y x prnd).1.1 ≤ y ∧ (crop_offsets param_ y x prnd).1.2 ≤ x := by
  unfold crop_offsets
  split
  · have hy := uniform_int_distribution_range 0 (y : Int) (by omega) prnd
    have hx := uniform_int_distribution_range 0 (x : Int) (by omega)
      (uniform_int_distribution 0 (y : Int) (by omega) prnd).2
    simp only
    omega
  · simp only
    omega

theorem crop_offsets_centered (param_ : DefaultImageAugmentParam) (y x : Nat)
    (prnd : RANDOM_ENGINE) (hrand : param_.rand_crop = false) :
    crop_offsets param_ y x prnd = ((y / 2, x / 2), prnd) := by
  simp [crop_offsets, hrand]

theorem roi_of_inside (m : Mat) (x y w h : Nat) (hx : x + w ≤ m.cols) (hy : y + h ≤ m.rows) :
    m.roi { x := (x : Int), y := (y : Int), width := (w : Int), height := (h : Int) }
      = .ok { rows := h, cols := w, pixel := fun i j => m.pixel (y + i) (x + j) } := by
  unfold Mat.roi
  have hc : 0 ≤ (x : Int) ∧ 0 ≤ (w : Int) ∧ (x : Int) + (w : Int) ≤ (m.cols : Int) ∧
      0 ≤ (y : Int) ∧ 0 ≤ (h : Int) ∧ (y : Int) + (h : Int) ≤ (m.rows : Int) := by
    omega
  simp only [hc, and_self, if_true, Int.toNat_ofNat]

theorem roi_ok_size (m : Mat) (r : Rect) (out : Mat) (h : m.roi r = .ok out) :
    (out.rows : Int) = r.height ∧ (out.cols : Int) = r.width := by
  unfold Mat.roi at h
  split at h
  · rename_i hc
    injection h with h
    subst h
    simp only
    omega
  · cases h

theorem roi_error (m : Mat) (r : Rect) (e : Error) (h : m.roi r = .error e) :
    e = .cv_assert := by
  unfold Mat.roi at h
  split at h
  · cases h
  · injection h with h
    exact h.symm

theorem exact_crop_choice_centered (param_ : DefaultImageAugmentParam) (res : Mat)
    (prnd : RANDOM_ENGINE) (hvalid : res.valid) (hrand : param_.rand_crop = false)
    (hrows : param_.data_shape.get 1 ≤ res.rows) (hcols : param_.data_shape.get 2 ≤ res.cols) :
    exact_crop_choice param_ res prnd
      = ({ x := (((res.cols - param_.data_shape.get 2) / 2 : Nat) : Int)
           y := (((res.rows - param_.data_shape.get 1) / 2 : Nat) : Int)
           width := ((param_.data_shape.get 2 : Nat) : Int)
           height := ((param_.data_shape.get 1 : Nat) : Int) }, prnd) := by
  obtain ⟨hr, hc⟩ := hvalid
  unfold exact_crop_choice
  simp only [crop_offsets_centered _ _ _ _ hrand]
  rw [index_of_int_natCast _ hr, index_of_int_natCast _ hc,
    index_sub_of_le _ _ hrows (by omega), index_sub_of_le _ _ hcols (by omega),
    int_of_index_small _ (by omega), int_of_index_small _ (by omega),
    int_of_index_small _ (by omega), int_of_index_small _ (by omega)]

theorem exact_crop_check_iff (param_ : DefaultImageAugmentParam) (res : Mat)
    (hvalid : res.valid) :
    exact_crop_check param_ res
      ↔ (res.rows ≥ param_.data_shape.get 1 ∧ res.cols ≥ param_.data_shape.get 2) := by
  unfold exact_crop_check
  rw [index_of_int_natCast _ hvalid.1, index_of_int_natCast _ hvalid.2]

theorem crop_stage_exact_centered (ext : External) (aug : DefaultImageAugmenter) (res : Mat)
    (prnd : RANDOM_ENGINE) (hvalid : res.valid) (hexact : ¬ aug.param_.range_crop)
    (hrand : aug.param_.rand_crop = false)
    (hrows : aug.param_.data_shape.get 1 ≤ res.rows)
    (hcols : aug.param_.data_shape.get 2 ≤ res.cols) :
    aug.crop_stage ext res prnd
      = .ok ({ rows := aug.param_.data_shape.get 1
               cols := aug.param_.data_shape.get 2
               pixel := fun i j =>
                 res.pixel ((res.rows - aug.param_.data_shape.get 1) / 2 + i)
                   ((res.cols - aug.param_.data_shape.get 2) / 2 + j) }, prnd) := by
  have hcheck : exact_crop_check aug.param_ res :=
    (exact_crop_check_iff _ _ hvalid).2 ⟨hrows, hcols⟩
  unfold DefaultImageAugmenter.crop_stage
  rw [if_neg hexact, if_pos hcheck, exact_crop_choice_centered _ _ _ hvalid hrand hrows hcols]
  simp only
  rw [roi_of_inside _ _ _ _ _ (by omega) (by omega)]

theorem centered_crop_full (src : Mat) :
    ({ rows := src.rows, cols := src.cols
       pixel := fun i j => src.pixel ((src.rows - src.rows) / 2 + i)
         ((src.cols - src.cols) / 2 + j) } : Mat) = src := by
  cases src with
  | mk rows cols pixel =>
    simp only [Nat.sub_self, Nat.zero_div, Nat.zero_add]

theorem range_crop_choice_spec (param_ : DefaultImageAugmentParam) (res : Mat)
    (prnd : RANDOM_ENGINE) (hvalid : res.valid) (hcheck : range_crop_check param_ res)
    (hmin : 0 ≤ param_.min_crop_size) :
    ∃ (c y x : Nat) (g : RANDOM_ENGINE),
      param_.min_crop_size ≤ (c : Int) ∧ (c : Int) ≤ param_.max_crop_size ∧
      y + c ≤ res.rows ∧ x + c ≤ res.cols ∧
      range_crop_choice param_ res prnd
        = .ok { size := c
                rect := { x := (x : Int), y := (y : Int), width := (c : Int), height := (c : Int) }
                prnd := g } := by
  obtain ⟨hr, hc⟩ := hvalid
  obtain ⟨h1, h2, h3⟩ := hcheck
  have ha : ((index_of_int param_.min_crop_size : Nat) : Int) = param_.min_crop_size :=
    index_of_int_of_nonneg _ hmin (by omega)
  have hb : ((index_of_int param_.max_crop_size : Nat) : Int) = param_.max_crop_size :=
    index_of_int_of_nonneg _ (by omega) (by omega)
  have hab : ((index_of_int param_.min_crop_size : Nat) : Int)
      ≤ ((index_of_int param_.max_crop_size : Nat) : Int) := by omega
  have hd := uniform_int_distribution_range _ _ hab prnd
  generalize hdef : uniform_int_distribution _ _ hab prnd = d at hd
  have hcz : ((d.1.toNat : Nat) : Int) = d.1 := Int.toNat_of_nonneg (by omega)
  have hcr : d.1.toNat ≤ res.rows := by omega
  have hcc : d.1.toNat ≤ res.cols := by omega
  have ho := crop_offsets_le param_ (res.rows - d.1.toNat) (res.cols - d.1.toNat) d.2
  refine ⟨d.1.toNat, (crop_offsets param_ (res.rows - d.1.toNat) (res.cols - d.1.toNat) d.2).1.1,
    (crop_offsets param_ (res.rows - d.1.toNat) (res.cols - d.1.toNat) d.2).1.2,
    (crop_offsets param_ (res.rows - d.1.toNat) (res.cols - d.1.toNat) d.2).2,
    by omega, by omega, by omega, by omega, ?_⟩
  unfold range_crop_choice
  rw [dif_pos hab, hdef]
  simp only
  rw [index_of_int_natCast _ hr, index_of_int_natCast _ hc,
    index_sub_of_le _ _ hcr (by omega), index_sub_of_le _ _ hcc (by omega),
    int_of_index_small _ (by omega), int_of_index_small _ (by omega),
    int_of_index_small _ (by omega)]

theorem range_crop_choice_error (param_ : DefaultImageAugmentParam) (res : Mat)
    (prnd : RANDOM_ENGINE) (e : Error) (h : range_crop_choice param_ res prnd = .error e) :
    e = .undefined_behavior := by
  unfold range_crop_choice at h
  split at h
  · cases h
  · injection h with h
    exact h.symm

theorem crop_stage_max_crop_error (ext : External) (aug : DefaultImageAugmenter) (res : Mat)
    (prnd : RANDOM_ENGINE) :
    aug.crop_stage ext res prnd = .error .smaller_than_max_crop_size
      ↔ (aug.param_.range_crop ∧ ¬ range_crop_check aug.param_ res) := by
  unfold DefaultImageAugmenter.crop_stage
  by_cases hr : aug.param_.range_crop
  · by_cases hc : range_crop_check aug.param_ res
    · simp only [hr, hc, if_true, not_true_eq_false, and_false, iff_false]
      cases hch : range_crop_choice aug.param_ res prnd with
      | error e =>
        have := range_crop_choice_error _ _ _ _ hch
        subst this
        simp
      | ok c =>
        simp only
        cases hroi : res.roi c.rect with
        | error e =>
          have := roi_error _ _ _ hroi
          subst this
          simp
        | ok sub =>
          simp only
          split <;> simp
    · simp [hr, hc]
  · simp only [hr, if_false, false_and, iff_false]
    split
    · split <;> simp_all [roi_error]
      rename_i e he
      have := roi_error _ _ _ he
      subst this
      simp
    · simp

theorem crop_stage_input_shape_error (ext : External) (aug : DefaultImageAugmenter) (res : Mat)
    (prnd : RANDOM_ENGINE) :
    aug.crop_stage ext res prnd = .error .smaller_than_input_shape
      ↔ (¬ aug.param_.range_crop ∧ ¬ exact_crop_check aug.param_ res) := by
  unfold DefaultImageAugmenter.crop_stage
  by_cases hr : aug.param_.range_crop
  · simp only [hr, if_true, not_true_eq_false, false_and, iff_false]
    by_cases hc : range_crop_check aug.param_ res
    · simp only [hc, if_true]
      cases hch : range_crop_choice aug.param_ res prnd with
      | error e =>
        have := range_crop_choice_error _ _ _ _ hch
        subst this
        simp
      | ok c =>
        simp only
        cases hroi : res.roi c.rect with
        | error e =>
          have := roi_error _ _ _ hroi
          subst this
          simp
        | ok sub =>
          simp only
          split <;> simp
    · simp [hc]
  · by_cases hc : exact_crop_check aug.param_ res
    · simp only [hr, hc, if_false, if_true, not_false_eq_true, not_true_eq_false, and_false,
        iff_false]
      cases hroi : res.roi (exact_crop_choice aug.param_ res prnd).1 with
      | error e =>
        have := roi_error _ _ _ hroi
        subst this
        simp
      | ok sub => simp
    · simp [hr, hc]

theorem crop_stage_not_invalid (ext : External) (aug : DefaultImageAugmenter) (res : Mat)
    (prnd : RANDOM_ENGINE) :
    aug.crop_stage ext res prnd ≠ .error .invalid_inter_method := by
  unfold DefaultImageAugmenter.crop_stage
  split
  · split
    · cases hch : range_crop_choice aug.param_ res prnd with
      | error e =>
        have := range_crop_choice_error _ _ _ _ hch
        subst this
        simp
      | ok c =>
        simp only
        cases hroi : res.roi c.rect with
        | error e =>
          have := roi_error _ _ _ hroi
          subst this
          simp
        | ok sub =>
          simp only
          split <;> simp
    · simp
  · split
    · cases hroi : res.roi (exact_crop_choice aug.param_ res prnd).1 with
      | error e =>
        have := roi_error _ _ _ hroi
        subst this
        simp
      | ok sub => simp
    · simp

theorem crop_stage_shape (ext : External) (hext : ext.Lawful) (aug : DefaultImageAugmenter)
    (res : Mat) (prnd : RANDOM_ENGINE) (hshape : aug.param_.data_shape.valid)
    (c : Mat × RANDOM_ENGINE) (h : aug.crop_stage ext res prnd = .ok c) :
    c.1.rows = aug.param_.data_shape.get 1 ∧ c.1.cols = aug.param_.data_shape.get 2 := by
  have h1 : aug.param_.data_shape.get 1 < 4294967296 := hshape.2.1
  have h2 : aug.param_.data_shape.get 2 < 4294967296 := hshape.2.2
  unfold DefaultImageAugmenter.crop_stage at h
  split at h
  · split at h
    · split at h
      · cases h
      · simp only at h
        split at h
        · cases h
        · split at h
          · cases h
          · rename_i out hres
            injection h with h
            subst h
            have hsz := hext.2.1 _ _ _ _ hres
            simp only at hsz ⊢
            exact ⟨int_of_index_nonneg _ h1 _ hsz.1, int_of_index_nonneg _ h2 _ hsz.2⟩
    · cases h
  · split at h
    · split at h
      · cases h
      · rename_i out hroi
        injection h with h
        subst h
        have hsz := roi_ok_size _ _ _ hroi
        simp only [exact_crop_choice] at hsz ⊢
        exact ⟨int_of_index_nonneg _ h1 _ hsz.1, int_of_index_nonneg _ h2 _ hsz.2⟩
    · cases h

/-! ## Lemmas on the colour stage -/

theorem color_stage_disabled (ext : External) (aug : DefaultImageAugmenter) (res : Mat)
    (prnd : RANDOM_ENGINE) (hcolor : ¬ aug.param_.color_enabled) :
    aug.color_stage ext res prnd = .ok (res, prnd) := by
  simp [DefaultImageAugmenter.color_stage, hcolor]

theorem jitter_offset_error (u : ℚ) (random_x : Int) (e : Error)
    (h : jitter_offset u random_x = .error e) : e = .undefined_behavior := by
  unfold jitter_offset float_to_int at h
  split at h
  · cases h
  · injection h with h
    exact h.symm

theorem color_stage_error (ext : External) (aug : DefaultImageAugmenter) (res : Mat)
    (prnd : RANDOM_ENGINE) (e : Error) (h : aug.color_stage ext res prnd = .error e) :
    e = .undefined_behavior := by
  unfold DefaultImageAugmenter.color_stage at h
  split at h
  · simp only at h
    split at h
    · cases h
    · injection h with h
      exact h.symm
  · cases h

theorem color_stage_shape (ext : External) (hext : ext.Lawful) (aug : DefaultImageAugmenter)
    (res : Mat) (prnd : RANDOM_ENGINE) (r : Mat × RANDOM_ENGINE)
    (h : aug.color_stage ext res prnd = .ok r) :
    r.1.rows = res.rows ∧ r.1.cols = res.cols := by
  unfold DefaultImageAugmenter.color_stage at h
  split at h
  · simp only at h
    split at h
    · injection h with h
      subst h
      have h1 := hext.2.2 res .CV_BGR2HLS
      rename_i hh ss ll _ _ _
      have h2 := color_jitter_size hh ss ll (ext.cvtColor res .CV_BGR2HLS)
      have h3 := hext.2.2 (color_jitter hh ss ll (ext.cvtColor res .CV_BGR2HLS)) .CV_HLS2BGR
      simp only
      constructor
      · rw [h3.1, h2.1, h1.1]
      · rw [h3.2, h2.2, h1.2]
    · cases h
  · injection h with h
    subst h
    exact ⟨rfl, rfl⟩

/-! ## Lemmas on the affine stage and the working image -/

theorem inter_method_ok_iff (m : Int) :
    inter_method_ok m ↔ (m = 1 ∨ m = 2 ∨ m = 3 ∨ m = 4 ∨ m = 9 ∨ m = 10) := by
  unfold inter_method_ok
  omega

theorem resolve_fill_fields (param_ : DefaultImageAugmentParam) :
    (resolve_fill param_).max_crop_size = param_.max_crop_size ∧
    (resolve_fill param_).min_crop_size = param_.min_crop_size ∧
    (resolve_fill param_).data_shape = param_.data_shape ∧
    (resolve_fill param_).rand_crop = param_.rand_crop ∧
    (resolve_fill param_).inter_method = param_.inter_method ∧
    (resolve_fill param_).pad = param_.pad ∧
    (resolve_fill param_).random_h = param_.random_h ∧
    (resolve_fill param_).random_s = param_.random_s ∧
    (resolve_fill param_).random_l = param_.random_l := by
  unfold resolve_fill
  split <;> simp

theorem affine_stage_augmenter (ext : External) (aug : DefaultImageAugmenter) (src : Mat)
    (prnd : RANDOM_ENGINE) (a : Mat × DefaultImageAugmenter × RANDOM_ENGINE)
    (h : aug.affine_stage ext src prnd = .ok a) :
    a.2.1 = { aug with param_ := resolve_fill aug.param_ } := by
  unfold DefaultImageAugmenter.affine_stage at h
  simp only at h
  split at h
  · split at h
    · split at h
      · split at h
        · injection h with h
          subst h
          rfl
        · cases h
      · cases h
    · cases h
  · cases h

theorem affine_stage_invalid (ext : External) (aug : DefaultImageAugmenter) (src : Mat)
    (prnd : RANDOM_ENGINE) (hang : 0 ≤ aug.param_.max_rotate_angle) :
    aug.affine_stage ext src prnd = .error .invalid_inter_method
      ↔ ¬ inter_method_ok aug.param_.inter_method := by
  have hang2 : -aug.param_.max_rotate_angle ≤ aug.param_.max_rotate_angle := by omega
  unfold DefaultImageAugmenter.affine_stage
  simp only [dif_pos hang2]
  by_cases hok : inter_method_ok aug.param_.inter_method
  · simp only [hok, if_true, not_true_eq_false, iff_false]
    split
    · split <;> simp
    · simp
  · simp [hok]

theorem working_image_disabled (ext : External) (aug : DefaultImageAugmenter) (src : Mat)
    (prnd : RANDOM_ENGINE) (haff : ¬ aug.affine_enabled) (hpad : ¬ aug.param_.pad > 0) :
    aug.working_image ext src prnd = .ok (src, aug, prnd) := by
  simp [DefaultImageAugmenter.working_image, haff, DefaultImageAugmenter.pad_stage, hpad]

theorem working_image_augmenter (ext : External) (aug : DefaultImageAugmenter) (src : Mat)
    (prnd : RANDOM_ENGINE) (w : Mat × DefaultImageAugmenter × RANDOM_ENGINE)
    (hw : aug.working_image ext src prnd = .ok w) :
    w.2.1 = aug ∨ w.2.1 = { aug with param_ := resolve_fill aug.param_ } := by
  unfold DefaultImageAugmenter.working_image at hw
  split at hw
  · cases hw
  · rename_i a ha
    injection hw with hw
    subst hw
    simp only
    split at ha
    · exact Or.inr (affine_stage_augmenter _ _ _ _ _ ha)
    · injection ha with ha
      subst ha
      exact Or.inl rfl

theorem working_image_fields (ext : External) (aug : DefaultImageAugmenter) (src : Mat)
    (prnd : RANDOM_ENGINE) (w : Mat × DefaultImageAugmenter × RANDOM_ENGINE)
    (hw : aug.working_image ext src prnd = .ok w) :
    w.2.1.param_.max_crop_size = aug.param_.max_crop_size ∧
    w.2.1.param_.min_crop_size = aug.param_.min_crop_size ∧
    w.2.1.param_.data_shape = aug.param_.data_shape ∧
    w.2.1.param_.rand_crop = aug.param_.rand_crop ∧
    w.2.1.param_.inter_method = aug.param_.inter_method ∧
    w.2.1.param_.pad = aug.param_.pad ∧
    w.2.1.param_.random_h = aug.param_.random_h ∧
    w.2.1.param_.random_s = aug.param_.random_s ∧
    w.2.1.param_.random_l = aug.param_.random_l := by
  rcases working_image_augmenter ext aug src prnd w hw with h | h
  · rw [h]
    simp
  · rw [h]
    exact resolve_fill_fields aug.param_

/-! ## Lemmas on `Process` -/

theorem Process_of_stages (ext : External) (aug : DefaultImageAugmenter) (src : Mat)
    (prnd : RANDOM_ENGINE) (w : Mat × DefaultImageAugmenter × RANDOM_ENGINE)
    (c r : Mat × RANDOM_ENGINE)
    (hw : aug.working_image ext src prnd = .ok w)
    (hc : w.2.1.crop_stage ext w.1 w.2.2 = .ok c)
    (hr : w.2.1.color_stage ext c.1 c.2 = .ok r) :
    aug.Process ext src prnd = .ok (r.1, w.2.1, r.2) := by
  simp [DefaultImageAugmenter.Process, hw, hc, hr]

theorem Process_stages_of_ok (ext : External) (aug : DefaultImageAugmenter) (src : Mat)
    (prnd : RANDOM_ENGINE) (r : Mat × DefaultImageAugmenter × RANDOM_ENGINE)
    (h : aug.Process ext src prnd = .ok r) :
    ∃ (w : Mat × DefaultImageAugmenter × RANDOM_ENGINE) (c q : Mat × RANDOM_ENGINE),
      aug.working_image ext src prnd = .ok w ∧
      w.2.1.crop_stage ext w.1 w.2.2 = .ok c ∧
      w.2.1.color_stage ext c.1 c.2 = .ok q ∧ r = (q.1, w.2.1, q.2) := by
  unfold DefaultImageAugmenter.Process at h
  cases hw : aug.working_image ext src prnd with
  | error e => rw [hw] at h; cases h
  | ok w =>
    rw [hw] at h
    simp only at h
    cases hc : w.2.1.crop_stage ext w.1 w.2.2 with
    | error e => rw [hc] at h; cases h
    | ok c =>
      rw [hc] at h
      simp only at h
      cases hq : w.2.1.color_stage ext c.1 c.2 with
      | error e => rw [hq] at h; cases h
      | ok q =>
        rw [hq] at h
        injection h with h
        exact ⟨w, c, q, rfl, hc, hq, h.symm⟩

theorem Process_crop_error (ext : External) (aug : DefaultImageAugmenter) (src : Mat)
    (prnd : RANDOM_ENGINE) (w : Mat × DefaultImageAugmenter × RANDOM_ENGINE)
    (hw : aug.working_image ext src prnd = .ok w) (e : Error) (he : e ≠ .undefined_behavior) :
    aug.Process ext src prnd = .error e ↔ w.2.1.crop_stage ext w.1 w.2.2 = .error e := by
  unfold DefaultImageAugmenter.Process
  rw [hw]
  simp only
  cases hc : w.2.1.crop_stage ext w.1 w.2.2 with
  | error e2 => simp
  | ok c =>
    simp only
    cases hr : w.2.1.color_stage ext c.1 c.2 with
    | error e3 =>
      have := color_stage_error _ _ _ _ _ hr
      subst this
      simp only [Except.error.injEq, reduceCtorEq, iff_false]
      exact fun h => he h.symm
    | ok r => simp

theorem Process_invalid_iff (ext : External) (aug : DefaultImageAugmenter) (src : Mat)
    (prnd : RANDOM_ENGINE) :
    aug.Process ext src prnd = .error .invalid_inter_method
      ↔ (aug.affine_enabled ∧ aug.affine_stage ext src prnd = .error .invalid_inter_method) := by
  unfold DefaultImageAugmenter.Process
  cases hw : aug.working_image ext src prnd with
  | error e =>
    simp only [Except.error.injEq]
    unfold DefaultImageAugmenter.working_image at hw
    by_cases hen : aug.affine_enabled
    · simp only [hen, if_true, true_and] at hw ⊢
      cases ha : aug.affine_stage ext src prnd with
      | error e2 =>
        rw [ha] at hw
        simp only [Except.error.injEq] at hw ⊢
        rw [hw]
      | ok a =>
        rw [ha] at hw
        cases hw
    · simp [hen] at hw
  | ok w =>
    simp only
    have hcrop := Process_crop_error ext aug src prnd w hw .invalid_inter_method (by decide)
    unfold DefaultImageAugmenter.Process at hcrop
    rw [hw] at hcrop
    simp only at hcrop
    rw [hcrop]
    have hne := crop_stage_not_invalid ext w.2.1 w.1 w.2.2
    simp only [hne, false_iff, not_and]
    intro hen ha
    unfold DefaultImageAugmenter.working_image at hw
    rw [if_pos hen, ha] at hw
    cases hw

/-! ## Lemmas on the reference instance -/

theorem nearest_resize_size (src : Mat) (dsize : Size) (dst : Mat)
    (h : nearest_resize src dsize = some dst) :
    (dst.rows : Int) = dsize.height ∧ (dst.cols : Int) = dsize.width := by
  unfold nearest_resize at h
  split at h
  · injection h with h
    subst h
    simp only
    omega
  · cases h

theorem reference_external_lawful : reference_external.Lawful :=
  ⟨fun src _ dsize _ _ dst h => nearest_resize_size src dsize dst h,
   fun src dsize _ dst h => nearest_resize_size src dsize dst h,
   fun _ _ => ⟨rfl, rfl⟩⟩

/-! ## The output shape (C1) -/

/-- C1: for every parameter set (its `data_shape = (3, H, W)` holding `index_t`
values), every source image and every state of the random engine, if `Process`
returns an image then that image has exactly `H` rows and `W` columns: in the
range-crop branch (after the resize) as in the exact-crop branch, for both values of
`rand_crop`, with or without padding and colour jitter. The OpenCV routines are only
assumed to honour their size contract. -/
theorem Process_shape (ext : External) (hext : ext.Lawful) (aug : DefaultImageAugmenter)
    (src : Mat) (prnd : RANDOM_ENGINE) (hshape : aug.param_.data_shape.valid)
    (r : Mat × DefaultImageAugmenter × RANDOM_ENGINE)
    (h : aug.Process ext src prnd = .ok r) :
    r.1.rows = aug.param_.data_shape.get 1 ∧ r.1.cols = aug.param_.data_shape.get 2 := by
  obtain ⟨w, c, q, hw, hc, hq, hr⟩ := Process_stages_of_ok ext aug src prnd r h
  obtain ⟨-, -, hds, -⟩ := working_image_fields ext aug src prnd w hw
  have hc2 := crop_stage_shape ext hext w.2.1 w.1 w.2.2 (by rw [hds]; exact hshape) c hc
  have hq2 := color_stage_shape ext hext w.2.1 c.1 c.2 q hq
  subst hr
  simp only
  rw [hq2.1, hq2.2, hc2.1, hc2.2, hds]
  exact ⟨rfl, rfl⟩

/-- Witness of C1: a 10x12 image padded by 2, cropped with a random size of 4 to 8
at a random offset and resized with a random method to `data_shape = (3, 5, 6)` comes
out 5x6. -/
theorem Process_shape_witness :
    ∃ r, DefaultImageAugmenter.Process reference_external
        { param_ := { data_shape := { d0 := 3, d1 := 5, d2 := 6 }, max_crop_size := 8
                      min_crop_size := 4, rand_crop := true, inter_method := 10
                      pad := 2 } }
        (test_image 10 12) (counting_engine 3) = .ok r ∧ r.1.rows = 5 ∧ r.1.cols = 6 :=
  ⟨_, rfl, Process_shape reference_external reference_external_lawful
    { param_ := { data_shape := { d0 := 3, d1 := 5, d2 := 6 }, max_crop_size := 8
                  min_crop_size := 4, rand_crop := true, inter_method := 10
                  pad := 2 } }
    (test_image 10 12) (counting_engine 3) (by decide) _ rfl⟩

/-! ## The centred exact crop (C2) -/

/-- C2: in the exact-crop branch (`max_crop_size = min_crop_size = -1`) with
`rand_crop` off, for every working image `w` with `rows ≥ H` and `cols ≥ W`, the
crop stage of `Process` extracts the `H x W` region whose top-left corner is
`x = (cols - W) / 2`, `y = (rows - H) / 2`: every pixel `(i, j)` of the result is the
working-image pixel `(y + i, x + j)`, and nothing is drawn from the random engine;
when the colour stage is off this region is the image `Process` returns. -/
theorem exact_crop_centered (ext : External) (aug : DefaultImageAugmenter) (src : Mat)
    (prnd : RANDOM_ENGINE) (w : Mat × DefaultImageAugmenter × RANDOM_ENGINE)
    (hw : aug.working_image ext src prnd = .ok w) (hvalid : w.1.valid)
    (hmaxcrop : aug.param_.max_crop_size = -1) (hmincrop : aug.param_.min_crop_size = -1)
    (hrand : aug.param_.rand_crop = false)
    (hrows : aug.param_.data_shape.get 1 ≤ w.1.rows)
    (hcols : aug.param_.data_shape.get 2 ≤ w.1.cols) :
    w.2.1.crop_stage ext w.1 w.2.2
      = .ok ({ rows := aug.param_.data_shape.get 1
               cols := aug.param_.data_shape.get 2
               pixel := fun i j =>
                 w.1.pixel ((w.1.rows - aug.param_.data_shape.get 1) / 2 + i)
                   ((w.1.cols - aug.param_.data_shape.get 2) / 2 + j) }, w.2.2) ∧
    (¬ aug.param_.color_enabled →
      aug.Process ext src prnd
        = .ok ({ rows := aug.param_.data_shape.get 1
                 cols := aug.param_.data_shape.get 2
                 pixel := fun i j =>
                   w.1.pixel ((w.1.rows - aug.param_.data_shape.get 1) / 2 + i)
                     ((w.1.cols - aug.param_.data_shape.get 2) / 2 + j) }, w.2.1, w.2.2)) := by
  obtain ⟨hmax, hmin, hshape, hrc, -, -, hh, hs, hl⟩ :=
    working_image_fields ext aug src prnd w hw
  have hexact : ¬ w.2.1.param_.range_crop := by
    unfold DefaultImageAugmentParam.range_crop
    simp [hmax, hmin, hmaxcrop, hmincrop]
  have hc := crop_stage_exact_centered ext w.2.1 w.1 w.2.2 hvalid hexact
    (by rw [hrc]; exact hrand) (by rw [hshape]; exact hrows) (by rw [hshape]; exact hcols)
  rw [hshape] at hc
  refine ⟨hc, fun hcolor => ?_⟩
  have hcolor2 : ¬ w.2.1.param_.color_enabled := by
    unfold DefaultImageAugmentParam.color_enabled at hcolor ⊢
    rw [hh, hs, hl]
    exact hcolor
  exact Process_of_stages ext aug src prnd w _ _ hw hc
    (color_stage_disabled ext w.2.1 _ _ hcolor2)

/-- Witness of C2: for a 100x100 image, `data_shape = (3, 50, 50)` and every other
parameter at its default, `Process` returns the 50x50 crop at offset `(25, 25)`. -/
theorem exact_crop_centered_witness :
    DefaultImageAugmenter.Process reference_external
        { param_ := { data_shape := { d0 := 3, d1 := 50, d2 := 50 } } }
        (test_image 100 100) (counting_engine 0)
      = .ok ({ rows := 50, cols := 50
               pixel := fun i j => (test_image 100 100).pixel (25 + i) (25 + j) },
             { param_ := { data_shape := { d0 := 3, d1 := 50, d2 := 50 } } },
             counting_engine 0) :=
  (exact_crop_centered reference_external
    { param_ := { data_shape := { d0 := 3, d1 := 50, d2 := 50 } } }
    (test_image 100 100) (counting_engine 0)
    (test_image 100 100, { param_ := { data_shape := { d0 := 3, d1 := 50, d2 := 50 } } },
      counting_engine 0)
    rfl (by decide) rfl rfl rfl (by decide) (by decide)).2 (by decide)

/-! ## The identity (C3) -/

/-- C3: when no affine trigger holds (`max_rotate_angle ≤ 0`, `max_shear_ratio ≤ 0`,
`rotate ≤ 0`, empty rotate list, both random scales 1, `max_aspect_ratio = 0`,
`max_img_size` and `min_img_size` at their defaults), `pad = 0`, no crop-size range is
configured, `rand_crop` is off, the three colour ranges are 0 and the source has
exactly the target size, `Process` returns the source image itself, leaves the
augmenter as it was and draws nothing from the random engine. -/
theorem Process_identity (ext : External) (aug : DefaultImageAugmenter) (src : Mat)
    (prnd : RANDOM_ENGINE) (hvalid : src.valid)
    (hrows : src.rows = aug.param_.data_shape.get 1)
    (hcols : src.cols = aug.param_.data_shape.get 2)
    (hangle : aug.param_.max_rotate_angle ≤ 0) (hshear : aug.param_.max_shear_ratio ≤ 0)
    (hrotate : aug.param_.rotate ≤ 0) (hlist : aug.rotate_list_ = [])
    (hmaxscale : aug.param_.max_random_scale = 1) (hminscale : aug.param_.min_random_scale = 1)
    (haspect : aug.param_.max_aspect_ratio = 0)
    (hmaximg : aug.param_.max_img_size = 10000000000) (hminimg : aug.param_.min_img_size = 0)
    (hpad : aug.param_.pad = 0)
    (hmaxcrop : aug.param_.max_crop_size = -1) (hmincrop : aug.param_.min_crop_size = -1)
    (hrand : aug.param_.rand_crop = false)
    (hh : aug.param_.random_h = 0) (hs : aug.param_.random_s = 0)
    (hl : aug.param_.random_l = 0) :
    aug.Process ext src prnd = .ok (src, aug, prnd) := by
  have haff : ¬ aug.affine_enabled := by
    unfold DefaultImageAugmenter.affine_enabled
    simp only [hlist, hmaxscale, hminscale, haspect, hmaximg, hminimg, List.length_nil,
      gt_iff_lt, lt_self_iff_false, ne_eq, not_true_eq_false, or_false, not_or, not_lt]
    exact ⟨hangle, hshear, hrotate⟩
  have hnopad : ¬ aug.param_.pad > 0 := by omega
  have hexact : ¬ aug.param_.range_crop := by
    unfold DefaultImageAugmentParam.range_crop
    simp [hmaxcrop, hmincrop]
  have hcolor : ¬ aug.param_.color_enabled := by
    unfold DefaultImageAugmentParam.color_enabled
    simp [hh, hs, hl]
  have hw := working_image_disabled ext aug src prnd haff hnopad
  have hc := crop_stage_exact_centered ext aug src prnd hvalid hexact hrand
    (le_of_eq hrows.symm) (le_of_eq hcols.symm)
  rw [← hrows, ← hcols, centered_crop_full] at hc
  exact Process_of_stages ext aug src prnd (src, aug, prnd) (src, prnd) (src, prnd) hw hc
    (color_stage_disabled ext aug src prnd hcolor)

/-- Witness of C3: a 4x6 image, `data_shape = (3, 4, 6)`, every other parameter at its
default. -/
theorem Process_identity_witness :
    DefaultImageAugmenter.Process reference_external
        { param_ := { data_shape := { d0 := 3, d1 := 4, d2 := 6 } } }
        (test_image 4 6) (counting_engine 0)
      = .ok (test_image 4 6, { param_ := { data_shape := { d0 := 3, d1 := 4, d2 := 6 } } },
          counting_engine 0) :=
  Process_identity reference_external
    { param_ := { data_shape := { d0 := 3, d1 := 4, d2 := 6 } } }
    (test_image 4 6) (counting_engine 0) (by decide) rfl rfl (by decide) (by decide)
    (by decide) rfl rfl rfl rfl rfl rfl rfl rfl rfl rfl rfl rfl rfl

/-! ## The interpolation method (C4, C5, C6) -/

/-- C4: with the requested method 9 (auto), `GetInterMethod` returns 2 (cubic) when
both new dimensions are larger than the old ones, 3 (area) when both are smaller and
1 (linear) in every other case, and leaves the random engine untouched; the three
sample calls of the specification give cubic, area and linear. -/
theorem GetInterMethod_auto (old_width old_height new_width new_height : Int)
    (prnd : RANDOM_ENGINE) :
    (new_width > old_width ∧ new_height > old_height →
        GetInterMethod 9 old_width old_height new_width new_height prnd = (2, prnd)) ∧
    (new_width < old_width ∧ new_height < old_height →
        GetInterMethod 9 old_width old_height new_width new_height prnd = (3, prnd)) ∧
    (¬ (new_width > old_width ∧ new_height > old_height) ∧
        ¬ (new_width < old_width ∧ new_height < old_height) →
        GetInterMethod 9 old_width old_height new_width new_height prnd = (1, prnd)) ∧
    GetInterMethod 9 10 10 20 20 prnd = (2, prnd) ∧
    GetInterMethod 9 20 20 10 10 prnd = (3, prnd) ∧
    GetInterMethod 9 10 20 20 10 prnd = (1, prnd) := by
  refine ⟨?_, ?_, ?_, ?_, ?_, ?_⟩
  · intro h
    simp [GetInterMethod, h]
  · intro h
    have hn : ¬ (old_width < new_width ∧ old_height < new_height) := by omega
    simp [GetInterMethod, h, hn]
  · intro h
    simp [GetInterMethod, h.1, h.2]
  · simp [GetInterMethod]
  · simp [GetInterMethod]
  · simp [GetInterMethod]

/-- C5: a requested method other than 9 and 10 is returned unchanged, whatever the
sizes, and the random engine is left untouched. -/
theorem GetInterMethod_passthrough (inter_method old_width old_height new_width
    new_height : Int) (prnd : RANDOM_ENGINE) (h9 : inter_method ≠ 9)
    (h10 : inter_method ≠ 10) :
    GetInterMethod inter_method old_width old_height new_width new_height prnd
      = (inter_method, prnd) := by
  simp [GetInterMethod, h9, h10]

/-- Witness of C5: method 3 (area) is passed through for a 640x480 to 17x900 resize. -/
theorem GetInterMethod_passthrough_witness :
    GetInterMethod 3 640 480 17 900 (counting_engine 7) = (3, counting_engine 7) :=
  GetInterMethod_passthrough 3 640 480 17 900 (counting_engine 7) (by decide) (by decide)

/-- C6: with the requested method 10 (random), `GetInterMethod` returns one of
0, 1, 2, 3, 4 for every state of the random engine, and each of the five values is
returned for some state of the random engine. -/
theorem GetInterMethod_random (old_width old_height new_width new_height : Int) :
    (∀ prnd : RANDOM_ENGINE,
      0 ≤ (GetInterMethod 10 old_width old_height new_width new_height prnd).1 ∧
      (GetInterMethod 10 old_width old_height new_width new_height prnd).1 ≤ 4) ∧
    (∀ k : Nat, k ≤ 4 → ∃ prnd : RANDOM_ENGINE,
      (GetInterMethod 10 old_width old_height new_width new_height prnd).1 = (k : Int)) := by
  constructor
  · intro prnd
    have h := uniform_int_distribution_range 0 4 (by decide) prnd
    simpa [GetInterMethod] using h
  · intro k hk
    refine ⟨counting_engine k, ?_⟩
    simp only [GetInterMethod, uniform_int_distribution, RANDOM_ENGINE.next, counting_engine]
    simp
    omega

/-! ## The colour clamp (C7) -/

/-- C7: in the colour stage, for every pixel `(i, j)` of the image and every channel
`k < 3`, with `v` the original channel value, `t = temp[k]` the offset and
`limit = (180, 255, 255)`, the value written back lies in `[0, limit[k]]`; it is
`max(0, min(limit[k], v + t))` whenever the `int` sum `v + t` is representable, and
it is `v + t` itself whenever `v + t` already lies in `[0, limit[k]]`: the store into
the 8-bit channel never wraps. -/
theorem color_jitter_clamp (res : Mat) (h s l : Int) (i j k : Nat)
    (hi : i < res.rows) (hj : j < res.cols) (hk : k < 3) :
    ((0 : Int) ≤ (((color_jitter h s l res).pixel i j).get k : Nat) ∧
      ((((color_jitter h s l res).pixel i j).get k : Nat) : Int) ≤ int_array3 180 255 255 k) ∧
    (-2147483648 ≤ (((res.pixel i j).get k : Nat) : Int) + int_array3 h l s k ∧
      (((res.pixel i j).get k : Nat) : Int) + int_array3 h l s k ≤ 2147483647 →
      ((((color_jitter h s l res).pixel i j).get k : Nat) : Int)
        = max 0 (min (int_array3 180 255 255 k)
            ((((res.pixel i j).get k : Nat) : Int) + int_array3 h l s k))) ∧
    (0 ≤ (((res.pixel i j).get k : Nat) : Int) + int_array3 h l s k ∧
      (((res.pixel i j).get k : Nat) : Int) + int_array3 h l s k ≤ int_array3 180 255 255 k →
      ((((color_jitter h s l res).pixel i j).get k : Nat) : Int)
        = (((res.pixel i j).get k : Nat) : Int) + int_array3 h l s k) := by
  have hl := limit_array_range k
  rw [color_jitter, color_loop_channel _ _ res i j k hi hj hk]
  refine ⟨jitter_value_range _ _ _ hl.1 hl.2, ?_, ?_⟩
  · intro hr
    exact jitter_value_clamp _ _ _ hl.1 hl.2 hr.1 hr.2
  · intro hr
    rw [jitter_value_clamp _ _ _ hl.1 hl.2 (by omega) (by omega)]
    simp only [max_def, min_def]
    split_ifs <;> omega

/-- Witness of C7: on a 2x2 test image with offsets `h = -7`, `s = 300`, `l = 5`,
the hue of pixel `(1, 1)` (value 1, offset -7) is clamped to 0 and its third channel
(value 2, offset 300) is clamped to 255. -/
theorem color_jitter_clamp_witness :
    (((color_jitter (-7) 300 5 (test_image 2 2)).pixel 1 1).get 0 : Nat) = 0 ∧
    (((color_jitter (-7) 300 5 (test_image 2 2)).pixel 1 1).get 2 : Nat) = 255 := by
  have h0 := (color_jitter_clamp (test_image 2 2) (-7) 300 5 1 1 0
    (by decide) (by decide) (by decide)).2.1
  have h2 := (color_jitter_clamp (test_image 2 2) (-7) 300 5 1 1 2
    (by decide) (by decide) (by decide)).2.1
  simp [test_image, Vec3b.get, int_array3] at h0 h2
  exact ⟨by exact_mod_cast h0, by exact_mod_cast h2⟩

/-! ## The range crop (C8) -/

/-- Counterexample to C8 as stated: with `min_crop_size = -5`, `max_crop_size = -2`
and a 10x10 working image the range branch is taken and its check passes, yet the
drawn crop size is the `index_t` value 4294967291, which exceeds `max_crop_size`;
the rectangle is `(7, 7, -5, -5)`, `x + c` exceeds the 10 columns, and OpenCV
rejects the rectangle. With only `max_crop_size = 8` configured (`min_crop_size` at
its default -1) the check passes as well, and the size distribution is built with a
lower bound 4294967295 above its upper bound 8, so that no crop size is defined. -/
theorem range_crop_bounds_counterexample :
    (({ data_shape := { d0 := 3, d1 := 5, d2 := 6 }, max_crop_size := -2, min_crop_size := -5 }
      : DefaultImageAugmentParam).range_crop ∧
    range_crop_check
      { data_shape := { d0 := 3, d1 := 5, d2 := 6 }, max_crop_size := -2, min_crop_size := -5 }
      (test_image 10 10) ∧
    ∃ c, range_crop_choice
        { data_shape := { d0 := 3, d1 := 5, d2 := 6 }, max_crop_size := -2, min_crop_size := -5 }
        (test_image 10 10) (counting_engine 0) = .ok c ∧
      c.size = 4294967291 ∧
      c.rect = { x := 7, y := 7, width := -5, height := -5 } ∧
      ¬ ((c.size : Int) ≤ -2) ∧
      ¬ (c.rect.x + (c.size : Int) ≤ ((test_image 10 10).cols : Int)) ∧
      (test_image 10 10).roi c.rect = .error .cv_assert) ∧
    (({ data_shape := { d0 := 3, d1 := 5, d2 := 6 }, max_crop_size := 8 }
      : DefaultImageAugmentParam).range_crop ∧
    range_crop_check { data_shape := { d0 := 3, d1 := 5, d2 := 6 }, max_crop_size := 8 }
      (test_image 10 10) ∧
    index_of_int (-1) = 4294967295 ∧
    range_crop_choice { data_shape := { d0 := 3, d1 := 5, d2 := 6 }, max_crop_size := 8 }
      (test_image 10 10) (counting_engine 0) = .error .undefined_behavior) :=
  ⟨⟨by decide, by decide, _, rfl, by decide, by decide, by decide, by decide, rfl⟩,
    by decide, by decide, by decide, rfl⟩

/-- C8 (amended): in the range-crop branch, for every parameter set with
`min_crop_size ≥ 0` and every working image that pass the check of the branch, for
both values of `rand_crop` and every state of the random engine, a crop size `c` is
drawn with `min_crop_size ≤ c ≤ max_crop_size`, and the rectangle `(x, y, c, c)`
lies inside the working image: `0 ≤ x`, `0 ≤ y`, `x + c ≤ cols`, `y + c ≤ rows`;
OpenCV accepts it and the extracted region is `c x c`. -/
theorem range_crop_bounds (param_ : DefaultImageAugmentParam) (res : Mat)
    (prnd : RANDOM_ENGINE) (hvalid : res.valid) (hcheck : range_crop_check param_ res)
    (hmin : 0 ≤ param_.min_crop_size) :
    ∃ c, range_crop_choice param_ res prnd = .ok c ∧
      param_.min_crop_size ≤ (c.size : Int) ∧ (c.size : Int) ≤ param_.max_crop_size ∧
      c.rect.width = (c.size : Int) ∧ c.rect.height = (c.size : Int) ∧
      0 ≤ c.rect.x ∧ 0 ≤ c.rect.y ∧
      c.rect.x + (c.size : Int) ≤ (res.cols : Int) ∧
      c.rect.y + (c.size : Int) ≤ (res.rows : Int) ∧
      ∃ sub, res.roi c.rect = .ok sub ∧ sub.rows = c.size ∧ sub.cols = c.size := by
  obtain ⟨c, y, x, g, h1, h2, h3, h4, heq⟩ :=
    range_crop_choice_spec param_ res prnd hvalid hcheck hmin
  refine ⟨_, heq, h1, h2, rfl, rfl, ?_, ?_, ?_, ?_, ?_⟩
  · simp only; omega
  · simp only; omega
  · simp only; omega
  · simp only; omega
  · exact ⟨_, roi_of_inside res x y c c h4 h3, rfl, rfl⟩

/-- Witness of C8: crop sizes 4 to 8 with random offsets on a 10x12 image. -/
theorem range_crop_bounds_witness :
    ∃ c, range_crop_choice
        { data_shape := { d0 := 3, d1 := 5, d2 := 6 }, max_crop_size := 8, min_crop_size := 4
          rand_crop := true }
        (test_image 10 12) (counting_engine 3) = .ok c ∧
      (4 : Int) ≤ (c.size : Int) ∧ (c.size : Int) ≤ 8 ∧
      c.rect.width = (c.size : Int) ∧ c.rect.height = (c.size : Int) ∧
      0 ≤ c.rect.x ∧ 0 ≤ c.rect.y ∧
      c.rect.x + (c.size : Int) ≤ ((12 : Nat) : Int) ∧
      c.rect.y + (c.size : Int) ≤ ((10 : Nat) : Int) ∧
      ∃ sub, (test_image 10 12).roi c.rect = .ok sub ∧ sub.rows = c.size ∧ sub.cols = c.size :=
  range_crop_bounds
    { data_shape := { d0 := 3, d1 := 5, d2 := 6 }, max_crop_size := 8, min_crop_size := 4
      rand_crop := true }
    (test_image 10 12) (counting_engine 3) (by decide) (by decide) (by decide)

/-! ## The crop precondition (C9) -/

/-- C9: with `w` the working image (after the affine and padding stages), `Process`
stops at the crop precondition exactly when the working image is too small: in the
range-crop branch it stops at the check of that branch if and only if not
(`rows ≥ max_crop_size` and `cols ≥ max_crop_size` and `max_crop_size ≥
min_crop_size`); in the exact-crop branch it stops at the check of that branch if and
only if not (`rows ≥ data_shape[1]` and `cols ≥ data_shape[2]`); neither branch
raises the failure of the other, and a failure returns no image. -/
theorem crop_precondition_failure (ext : External) (aug : DefaultImageAugmenter) (src : Mat)
    (prnd : RANDOM_ENGINE) (w : Mat × DefaultImageAugmenter × RANDOM_ENGINE)
    (hw : aug.working_image ext src prnd = .ok w) (hvalid : w.1.valid) :
    (aug.param_.range_crop →
      (aug.Process ext src prnd = .error .smaller_than_max_crop_size ↔
        ¬ ((w.1.rows : Int) ≥ aug.param_.max_crop_size ∧
            (w.1.cols : Int) ≥ aug.param_.max_crop_size ∧
            aug.param_.max_crop_size ≥ aug.param_.min_crop_size)) ∧
      aug.Process ext src prnd ≠ .error .smaller_than_input_shape) ∧
    (¬ aug.param_.range_crop →
      (aug.Process ext src prnd = .error .smaller_than_input_shape ↔
        ¬ (w.1.rows ≥ aug.param_.data_shape.get 1 ∧
            w.1.cols ≥ aug.param_.data_shape.get 2)) ∧
      aug.Process ext src prnd ≠ .error .smaller_than_max_crop_size) := by
  obtain ⟨hmax, hmin, hshape, -⟩ := working_image_fields ext aug src prnd w hw
  have hrange : w.2.1.param_.range_crop ↔ aug.param_.range_crop := by
    unfold DefaultImageAugmentParam.range_crop
    rw [hmax, hmin]
  have hcheck : range_crop_check w.2.1.param_ w.1 ↔
      ((w.1.rows : Int) ≥ aug.param_.max_crop_size ∧
        (w.1.cols : Int) ≥ aug.param_.max_crop_size ∧
        aug.param_.max_crop_size ≥ aug.param_.min_crop_size) := by
    unfold range_crop_check
    rw [hmax, hmin]
    constructor
    · rintro ⟨h1, h2, h3⟩
      exact ⟨h2, h1, h3⟩
    · rintro ⟨h1, h2, h3⟩
      exact ⟨h2, h1, h3⟩
  have hexact : exact_crop_check w.2.1.param_ w.1 ↔
      (w.1.rows ≥ aug.param_.data_shape.get 1 ∧ w.1.cols ≥ aug.param_.data_shape.get 2) := by
    rw [exact_crop_check_iff _ _ hvalid, hshape]
  rw [Ne, Ne, Process_crop_error ext aug src prnd w hw _ (by decide),
    Process_crop_error ext aug src prnd w hw _ (by decide),
    crop_stage_max_crop_error, crop_stage_input_shape_error, hrange, hcheck, hexact]
  constructor
  · intro hr
    simp [hr]
  · intro hr
    simp [hr]

/-- Witness of C9: a 40x100 image is too small for `data_shape = (3, 50, 50)`. -/
theorem crop_precondition_failure_witness :
    DefaultImageAugmenter.Process reference_external
        { param_ := { data_shape := { d0 := 3, d1 := 50, d2 := 50 } } }
        (test_image 40 100) (counting_engine 0)
      = .error .smaller_than_input_shape :=
  ((crop_precondition_failure reference_external
    { param_ := { data_shape := { d0 := 3, d1 := 50, d2 := 50 } } }
    (test_image 40 100) (counting_engine 0)
    (test_image 40 100, { param_ := { data_shape := { d0 := 3, d1 := 50, d2 := 50 } } },
      counting_engine 0)
    rfl (by decide)).2 (by decide)).1.2 (by decide)

/-! ## The validation of `inter_method` (C10) -/

/-- Counterexample to C10 as stated: `inter_method = 7` lies outside
`{1, 2, 3, 4, 9, 10}`, yet with every other parameter at its default `Process` returns
a 2x2 image without any failure; and with `inter_method = 0` and a crop-size range of
4 to 8, where the crop stage hands the method to the resize, `Process` returns a 5x6
image. -/
theorem inter_method_validation_counterexample :
    ¬ ((7 : Int) = 1 ∨ (7 : Int) = 2 ∨ (7 : Int) = 3 ∨ (7 : Int) = 4 ∨ (7 : Int) = 9
        ∨ (7 : Int) = 10) ∧
    (∃ r, DefaultImageAugmenter.Process reference_external
        { param_ := { data_shape := { d0 := 3, d1 := 2, d2 := 2 }, inter_method := 7 } }
        (test_image 2 2) (counting_engine 0) = .ok r ∧ r.1.rows = 2 ∧ r.1.cols = 2) ∧
    (∃ r, DefaultImageAugmenter.Process reference_external
        { param_ := { data_shape := { d0 := 3, d1 := 5, d2 := 6 }, inter_method := 0
                      max_crop_size := 8, min_crop_size := 4 } }
        (test_image 10 12) (counting_engine 3) = .ok r ∧ r.1.rows = 5 ∧ r.1.cols = 6) :=
  ⟨by decide, ⟨_, rfl, rfl, rfl⟩, ⟨_, rfl, rfl, rfl⟩⟩

/-- C10 (amended): `inter_method` is validated inside the affine stage only. When the
affine stage is triggered (and `max_rotate_angle ≥ 0`, so that its angle draw is
defined), `Process` fails with the invalid-configuration error, returning no image,
if and only if `inter_method` is outside `{1, 2, 3, 4, 9, 10}`; for every
`inter_method` inside that set the validation passes. When the affine stage is not
triggered, `Process` never raises that error, whatever `inter_method` is. -/
theorem inter_method_validation (ext : External) (aug : DefaultImageAugmenter) (src : Mat)
    (prnd : RANDOM_ENGINE) :
    (aug.affine_enabled → 0 ≤ aug.param_.max_rotate_angle →
      (aug.Process ext src prnd = .error .invalid_inter_method ↔
        ¬ (aug.param_.inter_method = 1 ∨ aug.param_.inter_method = 2 ∨
            aug.param_.inter_method = 3 ∨ aug.param_.inter_method = 4 ∨
            aug.param_.inter_method = 9 ∨ aug.param_.inter_method = 10))) ∧
    ((aug.param_.inter_method = 1 ∨ aug.param_.inter_method = 2 ∨
        aug.param_.inter_method = 3 ∨ aug.param_.inter_method = 4 ∨
        aug.param_.inter_method = 9 ∨ aug.param_.inter_method = 10) →
      0 ≤ aug.param_.max_rotate_angle →
      aug.Process ext src prnd ≠ .error .invalid_inter_method) ∧
    (¬ aug.affine_enabled → aug.Process ext src prnd ≠ .error .invalid_inter_method) := by
  refine ⟨?_, ?_, ?_⟩
  · intro hen hang
    rw [Process_invalid_iff, affine_stage_invalid ext aug src prnd hang, inter_method_ok_iff]
    simp [hen]
  · intro hin hang
    rw [Ne, Process_invalid_iff, affine_stage_invalid ext aug src prnd hang, inter_method_ok_iff]
    simp [hin]
  · intro hen
    rw [Ne, Process_invalid_iff]
    simp [hen]

/-- Witness of C10: with `rotate = 90` the affine stage is triggered and
`inter_method = 7` stops `Process` at the validation. -/
theorem inter_method_validation_witness :
    DefaultImageAugmenter.Process reference_external
        { param_ := { data_shape := { d0 := 3, d1 := 2, d2 := 2 }, inter_method := 7
                      rotate := 90 } }
        (test_image 2 2) (counting_engine 0) = .error .invalid_inter_method :=
  ((inter_method_validation reference_external
    { param_ := { data_shape := { d0 := 3, d1 := 2, d2 := 2 }, inter_method := 7
                  rotate := 90 } }
    (test_image 2 2) (counting_engine 0)).1 (by decide) (by decide)).2 (by decide)

/-! ## The rotation angle (C11) -/

theorem rotation_angle_of_list (aug : DefaultImageAugmenter)
    (hang : -aug.param_.max_rotate_angle ≤ aug.param_.max_rotate_angle)
    (prnd : RANDOM_ENGINE) (hlist : aug.rotate_list_ ≠ []) :
    (aug.rotation_angle hang prnd).1 ∈ aug.rotate_list_ := by
  have hpos : aug.rotate_list_.length > 0 := List.length_pos.mpr hlist
  unfold DefaultImageAugmenter.rotation_angle
  simp only [dif_pos hpos]
  have hr := uniform_int_distribution_range 0 ((aug.rotate_list_.length : Int) - 1)
    (by omega) (uniform_int_distribution (-aug.param_.max_rotate_angle)
      aug.param_.max_rotate_angle hang prnd).2
  generalize (uniform_int_distribution 0 ((aug.rotate_list_.length : Int) - 1) _ _).1 = e at hr
  have hlt : e.toNat < aug.rotate_list_.length := by omega
  rw [List.getD_eq_getElem _ _ hlt]
  exact List.getElem_mem _

theorem rotation_angle_of_empty (aug : DefaultImageAugmenter)
    (hang : -aug.param_.max_rotate_angle ≤ aug.param_.max_rotate_angle)
    (prnd : RANDOM_ENGINE) (hlist : aug.rotate_list_ = []) :
    (aug.rotation_angle hang prnd).1
      = if aug.param_.rotate > 0 then aug.param_.rotate
        else (uniform_int_distribution (-aug.param_.max_rotate_angle)
          aug.param_.max_rotate_angle hang prnd).1 := by
  have hlen : ¬ aug.rotate_list_.length > 0 := by simp [hlist]
  unfold DefaultImageAugmenter.rotation_angle
  simp only [dif_neg hlen]

/-- Counterexample to C11 as stated: with `rotate = 90` and the rotate list `[45]`
the angle of the affine stage is 45, an element of the list, not the fixed value 90. -/
theorem rotation_angle_precedence_counterexample :
    ({ param_ := { data_shape := { d0 := 3, d1 := 2, d2 := 2 }, rotate := 90 }
       rotate_list_ := [45] } : DefaultImageAugmenter).param_.rotate > 0 ∧
    (DefaultImageAugmenter.rotation_angle
      { param_ := { data_shape := { d0 := 3, d1 := 2, d2 := 2 }, rotate := 90 }
        rotate_list_ := [45] } (by decide) (counting_engine 0)).1 = 45 ∧
    (DefaultImageAugmenter.rotation_angle
      { param_ := { data_shape := { d0 := 3, d1 := 2, d2 := 2 }, rotate := 90 }
        rotate_list_ := [45] } (by decide) (counting_engine 0)).1 ≠ 90 :=
  ⟨by decide, by decide, by decide⟩

/-- C11 (amended): in the affine stage, for every state of the random engine, the
angle used is an element of the rotate list whenever that list is non-empty,
whatever `rotate` is (highest precedence); otherwise it is the fixed `rotate` value
when `rotate > 0`; otherwise it is an integer in `[-max_rotate_angle,
max_rotate_angle]`. -/
theorem rotation_angle_precedence (aug : DefaultImageAugmenter)
    (hang : -aug.param_.max_rotate_angle ≤ aug.param_.max_rotate_angle)
    (prnd : RANDOM_ENGINE) :
    (aug.rotate_list_ ≠ [] → (aug.rotation_angle hang prnd).1 ∈ aug.rotate_list_) ∧
    (aug.rotate_list_ = [] → aug.param_.rotate > 0 →
      (aug.rotation_angle hang prnd).1 = aug.param_.rotate) ∧
    (aug.rotate_list_ = [] → ¬ aug.param_.rotate > 0 →
      -aug.param_.max_rotate_angle ≤ (aug.rotation_angle hang prnd).1 ∧
      (aug.rotation_angle hang prnd).1 ≤ aug.param_.max_rotate_angle) := by
  refine ⟨rotation_angle_of_list aug hang prnd, ?_, ?_⟩
  · intro hlist hrot
    rw [rotation_angle_of_empty aug hang prnd hlist, if_pos hrot]
  · intro hlist hrot
    rw [rotation_angle_of_empty aug hang prnd hlist, if_neg hrot]
    exact uniform_int_distribution_range _ _ hang prnd

/-- Witness of C11: `max_rotate_angle = 30`, `rotate = 90` and the rotate list
`[0, 180, 270]`; the angle is drawn from the list. -/
theorem rotation_angle_precedence_witness :
    (DefaultImageAugmenter.rotation_angle
      { param_ := { data_shape := { d0 := 3, d1 := 2, d2 := 2 }, rotate := 90
                    max_rotate_angle := 30 }
        rotate_list_ := [0, 180, 270] } (by decide) (counting_engine 4)).1
      ∈ [(0 : Int), 180, 270] :=
  (rotation_angle_precedence
    { param_ := { data_shape := { d0 := 3, d1 := 2, d2 := 2 }, rotate := 90
                  max_rotate_angle := 30 }
      rotate_list_ := [0, 180, 270] } (by decide) (counting_engine 4)).1 (by decide)
/-! ## The fill colour (C12, C13) -/

theorem affine_stage_warp_value (aug : DefaultImageAugmenter) (src : Mat)
    (prnd : RANDOM_ENGINE) (ext1 ext2 : External)
    (hcos : ext1.cos = ext2.cos) (hsin : ext1.sin = ext2.sin) (hpi : ext1.M_PI = ext2.M_PI)
    (hwarp : ∀ m M dsize flags,
      ext1.warpAffine m M dsize flags (fill_scalar (resolve_fill aug.param_))
        = ext2.warpAffine m M dsize flags (fill_scalar (resolve_fill aug.param_))) :
    aug.affine_stage ext1 src prnd = aug.affine_stage ext2 src prnd := by
  unfold DefaultImageAugmenter.affine_stage
  simp only [hcos, hsin, hpi, hwarp]

/-- C12: the fill colour handed to the affine warp is the scalar
`(fill_value, fill_value, fill_value)` whenever at least one of `fill_value_r`,
`fill_value_g`, `fill_value_b` is negative, and the configured
`(fill_value_b, fill_value_g, fill_value_r)` when all three are non-negative; with
only `fill_value = 128` configured it is `(128, 128, 128)`. The affine stage calls
`warpAffine` with no other colour: two warps that agree on this colour give the same
stage. -/
theorem fill_colour_fallback (aug : DefaultImageAugmenter) :
    (aug.param_.fill_value_r < 0 ∨ aug.param_.fill_value_g < 0 ∨ aug.param_.fill_value_b < 0 →
      fill_scalar (resolve_fill aug.param_)
        = { v0 := aug.param_.fill_value, v1 := aug.param_.fill_value
            v2 := aug.param_.fill_value }) ∧
    (0 ≤ aug.param_.fill_value_r ∧ 0 ≤ aug.param_.fill_value_g ∧ 0 ≤ aug.param_.fill_value_b →
      fill_scalar (resolve_fill aug.param_)
        = { v0 := aug.param_.fill_value_b, v1 := aug.param_.fill_value_g
            v2 := aug.param_.fill_value_r }) ∧
    (∀ shape : TShape, fill_scalar (resolve_fill { data_shape := shape, fill_value := 128 })
        = { v0 := 128, v1 := 128, v2 := 128 }) ∧
    (∀ (src : Mat) (prnd : RANDOM_ENGINE) (ext1 ext2 : External),
      ext1.cos = ext2.cos → ext1.sin = ext2.sin → ext1.M_PI = ext2.M_PI →
      (∀ m M dsize flags,
        ext1.warpAffine m M dsize flags (fill_scalar (resolve_fill aug.param_))
          = ext2.warpAffine m M dsize flags (fill_scalar (resolve_fill aug.param_))) →
      aug.affine_stage ext1 src prnd = aug.affine_stage ext2 src prnd) := by
  refine ⟨?_, ?_, ?_, ?_⟩
  · intro h
    simp [resolve_fill, fill_scalar, h]
  · intro h
    have hn : ¬ (aug.param_.fill_value_r < 0 ∨ aug.param_.fill_value_g < 0
        ∨ aug.param_.fill_value_b < 0) := by omega
    simp [resolve_fill, fill_scalar, hn]
  · intro shape
    simp [resolve_fill, fill_scalar]
  · intro src prnd ext1 ext2 hcos hsin hpi hwarp
    exact affine_stage_warp_value aug src prnd ext1 ext2 hcos hsin hpi hwarp

/-- Evaluation for C13: with only `fill_value = 128` and `pad = 1` configured (the
affine stage not triggered) and `data_shape = (3, 4, 4)`, the first call of `Process`
on a 2x2 image returns the padded 4x4 image; its border is one pixel wide, the source
pixel `(1, 1)` sits at `(2, 2)`, and the border pixels `(0, 0)`, `(0, 3)`, `(3, 0)`
are `(0, 0, 0)`, whereas the resolved fill colour is `(128, 128, 128)`; the stored
`fill_value_r`, `fill_value_g`, `fill_value_b` are still -1 after the call. -/
theorem pad_border_first_call :
    ¬ ({ param_ := { data_shape := { d0 := 3, d1 := 4, d2 := 4 }, fill_value := 128, pad := 1 } }
        : DefaultImageAugmenter).affine_enabled ∧
    (fill_scalar (resolve_fill
        { data_shape := { d0 := 3, d1 := 4, d2 := 4 }, fill_value := 128, pad := 1 })).to_pixel
      = { c0 := 128, c1 := 128, c2 := 128 } ∧
    ∃ r, DefaultImageAugmenter.Process reference_external
        { param_ := { data_shape := { d0 := 3, d1 := 4, d2 := 4 }, fill_value := 128, pad := 1 } }
        (test_image 2 2) (counting_engine 0) = .ok r ∧
      r.1.rows = 4 ∧ r.1.cols = 4 ∧
      r.1.pixel 2 2 = (test_image 2 2).pixel 1 1 ∧
      r.1.pixel 0 0 = { c0 := 0, c1 := 0, c2 := 0 } ∧
      r.1.pixel 0 3 = { c0 := 0, c1 := 0, c2 := 0 } ∧
      r.1.pixel 3 0 = { c0 := 0, c1 := 0, c2 := 0 } ∧
      r.2.1.param_.fill_value_r = -1 ∧ r.2.1.param_.fill_value_g = -1 ∧
      r.2.1.param_.fill_value_b = -1 :=
  ⟨by decide, by decide, _, rfl, rfl, rfl, by decide, by decide, by decide, by decide,
    rfl, rfl, rfl⟩
/-! ## The affine arithmetic (C15, C16, C17) -/

/-- Counterexample to C15 as stated: for `scale = 1` and `ratio = 3` the factors are
`hs = 1/2` and `ws = 3/2`, whose product `3/4` is not `scale^2 = 1`. -/
theorem aspect_factors_area_counterexample :
    (1 : ℚ) + 3 ≠ 0 ∧ (aspect_factors 1 3).1 = 1 / 2 ∧ (aspect_factors 1 3).2 = 3 / 2 ∧
    (aspect_factors 1 3).1 * (aspect_factors 1 3).2 = 3 / 4 ∧
    (aspect_factors 1 3).1 * (aspect_factors 1 3).2 ≠ (1 : ℚ) ^ 2 := by
  unfold aspect_factors
  norm_num

/-- C15 (amended): over exact arithmetic, for every scale and every ratio with
`1 + ratio ≠ 0`, the factors `hs = 2 * scale / (1 + ratio)` and `ws = ratio * hs` of
the affine stage satisfy the aspect constraint `ws = ratio * hs` and keep the mean of
the two factors at the scale, `hs + ws = 2 * scale`; the area scale `hs * ws` equals
`scale^2` exactly when `scale = 0` or `ratio = 1`. -/
theorem aspect_factors_mean (scale ratio : ℚ) (hratio : 1 + ratio ≠ 0) :
    (aspect_factors scale ratio).1 = 2 * scale / (1 + ratio) ∧
    (aspect_factors scale ratio).2 = ratio * (aspect_factors scale ratio).1 ∧
    (aspect_factors scale ratio).1 + (aspect_factors scale ratio).2 = 2 * scale ∧
    ((aspect_factors scale ratio).1 * (aspect_factors scale ratio).2 = scale ^ 2
      ↔ (scale = 0 ∨ ratio = 1)) := by
  unfold aspect_factors
  refine ⟨rfl, rfl, ?_, ?_⟩
  · simp only
    field_simp
    ring
  · simp only
    have hsq : (1 + ratio) ^ 2 ≠ 0 := pow_ne_zero 2 hratio
    have key : 2 * scale / (1 + ratio) * (ratio * (2 * scale / (1 + ratio))) - scale ^ 2
        = -(scale ^ 2 * (ratio - 1) ^ 2) / (1 + ratio) ^ 2 := by
      field_simp
      ring
    constructor
    · intro h
      have h0 : -(scale ^ 2 * (ratio - 1) ^ 2) / (1 + ratio) ^ 2 = 0 := by
        rw [← key, h, sub_self]
      have h1 : scale ^ 2 * (ratio - 1) ^ 2 = 0 := by
        rcases div_eq_zero_iff.mp h0 with h2 | h2
        · exact neg_eq_zero.mp h2
        · exact absurd h2 hsq
      rcases mul_eq_zero.mp h1 with h2 | h2
      · exact Or.inl (pow_eq_zero_iff two_ne_zero |>.mp h2)
      · exact Or.inr (sub_eq_zero.mp (pow_eq_zero_iff two_ne_zero |>.mp h2))
    · intro h
      have h0 : 2 * scale / (1 + ratio) * (ratio * (2 * scale / (1 + ratio))) - scale ^ 2 = 0 := by
        rw [key]
        rcases h with h | h
        · simp [h]
        · simp [h]
      exact sub_eq_zero.mp h0

/-- Witness of C15: `scale = 1`, `ratio = 3`. -/
theorem aspect_factors_mean_witness :
    (aspect_factors 1 3).1 + (aspect_factors 1 3).2 = 2 * 1 :=
  (aspect_factors_mean 1 3 (by norm_num)).2.2.1

/-- C16: over exact arithmetic, the matrix `M` built by the affine stage has
`M[0,2] = (newW - (M[0,0] * cols + M[0,1] * rows)) / 2` and
`M[1,2] = (newH - (M[1,0] * cols + M[1,1] * rows)) / 2`, with the four linear entries
of lines 212-215, so that `M` maps the source centre `(cols / 2, rows / 2)` to the
canvas centre `(newW / 2, newH / 2)`. -/
theorem affine_matrix_centres (s a b hs ws : ℚ) (cols rows : Nat) (new_width new_height : ℚ) :
    (affine_matrix s a b hs ws cols rows new_width new_height).m00 = hs * a - s * b * ws ∧
    (affine_matrix s a b hs ws cols rows new_width new_height).m10 = -b * ws ∧
    (affine_matrix s a b hs ws cols rows new_width new_height).m01 = hs * b + s * a * ws ∧
    (affine_matrix s a b hs ws cols rows new_width new_height).m11 = a * ws ∧
    (affine_matrix s a b hs ws cols rows new_width new_height).m02
      = (new_width - ((affine_matrix s a b hs ws cols rows new_width new_height).m00 * cols
          + (affine_matrix s a b hs ws cols rows new_width new_height).m01 * rows)) / 2 ∧
    (affine_matrix s a b hs ws cols rows new_width new_height).m12
      = (new_height - ((affine_matrix s a b hs ws cols rows new_width new_height).m10 * cols
          + (affine_matrix s a b hs ws cols rows new_width new_height).m11 * rows)) / 2 ∧
    (affine_matrix s a b hs ws cols rows new_width new_height).m00 * ((cols : ℚ) / 2)
        + (affine_matrix s a b hs ws cols rows new_width new_height).m01 * ((rows : ℚ) / 2)
        + (affine_matrix s a b hs ws cols rows new_width new_height).m02 = new_width / 2 ∧
    (affine_matrix s a b hs ws cols rows new_width new_height).m10 * ((cols : ℚ) / 2)
        + (affine_matrix s a b hs ws cols rows new_width new_height).m11 * ((rows : ℚ) / 2)
        + (affine_matrix s a b hs ws cols rows new_width new_height).m12 = new_height / 2 := by
  unfold affine_matrix
  refine ⟨rfl, rfl, rfl, rfl, rfl, rfl, ?_, ?_⟩
  · simp only
    ring
  · simp only
    ring

/-- C17: over exact arithmetic, when `min_img_size ≤ max_img_size`, the canvas extent
`max(min_img_size, min(max_img_size, scale * n))` computed for a source extent `n`
(the width from `cols`, the height from `rows`) lies in `[min_img_size, max_img_size]`
and equals `scale * n` whenever `scale * n` already lies in that interval. -/
theorem canvas_size_clamp (param_ : DefaultImageAugmentParam) (scale : ℚ) (n : Nat)
    (hbounds : param_.min_img_size ≤ param_.max_img_size) :
    param_.min_img_size ≤ canvas_size param_ scale n ∧
    canvas_size param_ scale n ≤ param_.max_img_size ∧
    (param_.min_img_size ≤ scale * n ∧ scale * n ≤ param_.max_img_size →
      canvas_size param_ scale n = scale * n) := by
  unfold canvas_size
  refine ⟨le_max_left _ _, max_le hbounds (min_le_left _ _), ?_⟩
  rintro ⟨h1, h2⟩
  rw [min_eq_right h2, max_eq_right h1]

/-- Witness of C17: bounds 32 to 64, scale 3/2 and a source extent of 40: the extent
60 is kept. -/
theorem canvas_size_clamp_witness :
    canvas_size { data_shape := { d0 := 3, d1 := 2, d2 := 2 }, min_img_size := 32
                  max_img_size := 64 } (3 / 2) 40 = 3 / 2 * ((40 : Nat) : ℚ) :=
  (canvas_size_clamp { data_shape := { d0 := 3, d1 := 2, d2 := 2 }, min_img_size := 32
                       max_img_size := 64 } (3 / 2) 40 (by norm_num)).2.2
    (by norm_num)

/-! ## The jitter offsets (C18) -/

/-! ### Rounding to `float` -/

theorem float_ulp_pos (x : ℚ) : 0 < float_ulp x := by
  unfold float_ulp
  positivity

theorem working_image_no_affine (ext : External) (aug : DefaultImageAugmenter) (src : Mat)
    (prnd : RANDOM_ENGINE) (haff : ¬ aug.affine_enabled) :
    aug.working_image ext src prnd = .ok (aug.pad_stage src, aug, prnd) := by
  simp [DefaultImageAugmenter.working_image, haff]

theorem pad_stage_size (aug : DefaultImageAugmenter) (src : Mat) (hpad : 0 ≤ aug.param_.pad) :
    (aug.pad_stage src).rows = src.rows + 2 * aug.param_.pad.toNat ∧
    (aug.pad_stage src).cols = src.cols + 2 * aug.param_.pad.toNat := by
  unfold DefaultImageAugmenter.pad_stage
  split
  · simp only [copyMakeBorder]
    omega
  · have h0 : aug.param_.pad = 0 := by omega
    simp [h0]

theorem pad_stage_inner (aug : DefaultImageAugmenter) (src : Mat) (hpad : 0 ≤ aug.param_.pad)
    (i j : Nat) (hi : i < src.rows) (hj : j < src.cols) :
    (aug.pad_stage src).pixel (aug.param_.pad.toNat + i) (aug.param_.pad.toNat + j)
      = src.pixel i j := by
  unfold DefaultImageAugmenter.pad_stage
  split
  · simp only [copyMakeBorder]
    rw [if_pos (by omega)]
    simp
  · have h0 : aug.param_.pad = 0 := by omega
    simp [h0]

/-- C19: for every pad `p ≥ 0` (with the padded size `rows + 2p`, `cols + 2p` still an
`int`) and every source image whose size equals `(data_shape[1], data_shape[2])`, with
the affine stage not triggered, no crop-size range configured, `rand_crop` off and no
colour jitter, `Process` returns an image of the size of the source that equals it
pixel for pixel, leaves the augmenter as it was and draws nothing; the padded image
has size `(rows + 2p, cols + 2p)` and the centred crop rectangle is
`(p, p, cols, rows)`, so that no border pixel appears in the output. -/
theorem pad_then_crop_identity (ext : External) (aug : DefaultImageAugmenter) (src : Mat)
    (prnd : RANDOM_ENGINE) (hpad : 0 ≤ aug.param_.pad)
    (hfit : (src.rows : Int) + 2 * aug.param_.pad ≤ 2147483647 ∧
      (src.cols : Int) + 2 * aug.param_.pad ≤ 2147483647)
    (hrows : src.rows = aug.param_.data_shape.get 1)
    (hcols : src.cols = aug.param_.data_shape.get 2)
    (haff : ¬ aug.affine_enabled)
    (hmaxcrop : aug.param_.max_crop_size = -1) (hmincrop : aug.param_.min_crop_size = -1)
    (hrand : aug.param_.rand_crop = false)
    (hh : aug.param_.random_h = 0) (hs : aug.param_.random_s = 0)
    (hl : aug.param_.random_l = 0) :
    (aug.pad_stage src).rows = src.rows + 2 * aug.param_.pad.toNat ∧
    (aug.pad_stage src).cols = src.cols + 2 * aug.param_.pad.toNat ∧
    (exact_crop_choice aug.param_ (aug.pad_stage src) prnd).1
      = { x := aug.param_.pad, y := aug.param_.pad
          width := (src.cols : Int), height := (src.rows : Int) } ∧
    ∃ out, aug.Process ext src prnd = .ok (out, aug, prnd) ∧
      out.rows = src.rows ∧ out.cols = src.cols ∧
      ∀ i j, i < src.rows → j < src.cols → out.pixel i j = src.pixel i j := by
  obtain ⟨hpr, hpc⟩ := pad_stage_size aug src hpad
  have hvalid : (aug.pad_stage src).valid := by
    unfold Mat.valid
    rw [hpr, hpc]
    omega
  have hexact : ¬ aug.param_.range_crop := by
    unfold DefaultImageAugmentParam.range_crop
    simp [hmaxcrop, hmincrop]
  have hcolor : ¬ aug.param_.color_enabled := by
    unfold DefaultImageAugmentParam.color_enabled
    simp [hh, hs, hl]
  have hr : aug.param_.data_shape.get 1 ≤ (aug.pad_stage src).rows := by omega
  have hc : aug.param_.data_shape.get 2 ≤ (aug.pad_stage src).cols := by omega
  have hy : ((aug.pad_stage src).rows - aug.param_.data_shape.get 1) / 2
      = aug.param_.pad.toNat := by omega
  have hx : ((aug.pad_stage src).cols - aug.param_.data_shape.get 2) / 2
      = aug.param_.pad.toNat := by omega
  have hw := working_image_no_affine ext aug src prnd haff
  have hcrop := crop_stage_exact_centered ext aug (aug.pad_stage src) prnd hvalid hexact hrand
    hr hc
  rw [hx, hy] at hcrop
  refine ⟨hpr, hpc, ?_, _, Process_of_stages ext aug src prnd _ _ _ hw hcrop
    (color_stage_disabled ext aug _ _ hcolor), hrows.symm, hcols.symm, ?_⟩
  · rw [exact_crop_choice_centered _ _ _ hvalid hrand hr hc, hx, hy, ← hrows, ← hcols,
      Int.toNat_of_nonneg hpad]
  · intro i j hi hj
    exact pad_stage_inner aug src hpad i j hi hj

/-- Witness of C19: a 3x5 image padded by 2 and cropped back to
`data_shape = (3, 3, 5)`. -/
theorem pad_then_crop_identity_witness :
    ∃ out, DefaultImageAugmenter.Process reference_external
        { param_ := { data_shape := { d0 := 3, d1 := 3, d2 := 5 }, pad := 2 } }
        (test_image 3 5) (counting_engine 0)
        = .ok (out, { param_ := { data_shape := { d0 := 3, d1 := 3, d2 := 5 }, pad := 2 } },
            counting_engine 0) ∧
      out.rows = 3 ∧ out.cols = 5 ∧
      ∀ i j, i < 3 → j < 5 → out.pixel i j = (test_image 3 5).pixel i j :=
  (pad_then_crop_identity reference_external
    { param_ := { data_shape := { d0 := 3, d1 := 3, d2 := 5 }, pad := 2 } }
    (test_image 3 5) (counting_engine 0) (by decide) (by decide) rfl rfl (by decide)
    rfl rfl rfl rfl rfl rfl).2.2.2

/-! ## The exact crop rectangle (C20) -/

/-- C20: in the exact-crop branch, for every working image that passes the size check
`rows ≥ H`, `cols ≥ W`, for both values of `rand_crop` and every state of the random
engine, the unsigned subtractions `rows - H` and `cols - W` do not wrap and the crop
rectangle is `(x, y, W, H)` with `0 ≤ x ≤ cols - W` and `0 ≤ y ≤ rows - H`, hence
`x + W ≤ cols` and `y + H ≤ rows`; OpenCV accepts it and the crop stage returns the
`H x W` region at `(y, x)`. -/
theorem exact_crop_in_bounds (ext : External) (aug : DefaultImageAugmenter) (res : Mat)
    (prnd : RANDOM_ENGINE) (hvalid : res.valid) (hexact : ¬ aug.param_.range_crop)
    (hcheck : exact_crop_check aug.param_ res) :
    index_sub (index_of_int res.rows) (aug.param_.data_shape.get 1)
      = res.rows - aug.param_.data_shape.get 1 ∧
    index_sub (index_of_int res.cols) (aug.param_.data_shape.get 2)
      = res.cols - aug.param_.data_shape.get 2 ∧
    aug.param_.data_shape.get 1 ≤ res.rows ∧ aug.param_.data_shape.get 2 ≤ res.cols ∧
    ∃ x y : Nat,
      (exact_crop_choice aug.param_ res prnd).1
        = { x := (x : Int), y := (y : Int)
            width := ((aug.param_.data_shape.get 2 : Nat) : Int)
            height := ((aug.param_.data_shape.get 1 : Nat) : Int) } ∧
      x ≤ res.cols - aug.param_.data_shape.get 2 ∧
      y ≤ res.rows - aug.param_.data_shape.get 1 ∧
      x + aug.param_.data_shape.get 2 ≤ res.cols ∧
      y + aug.param_.data_shape.get 1 ≤ res.rows ∧
      aug.crop_stage ext res prnd
        = .ok ({ rows := aug.param_.data_shape.get 1
                 cols := aug.param_.data_shape.get 2
                 pixel := fun i j => res.pixel (y + i) (x + j) },
               (exact_crop_choice aug.param_ res prnd).2) := by
  obtain ⟨hrows, hcols⟩ := (exact_crop_check_iff _ _ hvalid).1 hcheck
  obtain ⟨hr, hc⟩ := hvalid
  have hsy := index_sub_of_le res.rows (aug.param_.data_shape.get 1) hrows (by omega)
  have hsx := index_sub_of_le res.cols (aug.param_.data_shape.get 2) hcols (by omega)
  have hiy := index_of_int_natCast _ hr
  have hix := index_of_int_natCast _ hc
  have ho := crop_offsets_le aug.param_ (res.rows - aug.param_.data_shape.get 1)
    (res.cols - aug.param_.data_shape.get 2) prnd
  have hchoice : (exact_crop_choice aug.param_ res prnd).1
      = { x := (((crop_offsets aug.param_ (res.rows - aug.param_.data_shape.get 1)
                (res.cols - aug.param_.data_shape.get 2) prnd).1.2 : Nat) : Int)
          y := (((crop_offsets aug.param_ (res.rows - aug.param_.data_shape.get 1)
                (res.cols - aug.param_.data_shape.get 2) prnd).1.1 : Nat) : Int)
          width := ((aug.param_.data_shape.get 2 : Nat) : Int)
          height := ((aug.param_.data_shape.get 1 : Nat) : Int) } := by
    unfold exact_crop_choice
    simp only
    rw [hiy, hix, hsy, hsx, int_of_index_small _ (by omega), int_of_index_small _ (by omega),
      int_of_index_small _ (by omega), int_of_index_small _ (by omega)]
  refine ⟨by rw [hiy]; exact hsy, by rw [hix]; exact hsx, hrows, hcols, _, _, hchoice,
    ho.2, ho.1, by omega, by omega, ?_⟩
  unfold DefaultImageAugmenter.crop_stage
  rw [if_neg hexact, if_pos hcheck, hchoice, roi_of_inside _ _ _ _ _ (by omega) (by omega)]

/-- Witness of C20: a random crop of `data_shape = (3, 5, 6)` from a 10x12 image. -/
theorem exact_crop_in_bounds_witness :
    index_sub (index_of_int ((10 : Nat) : Int)) 5 = 10 - 5 ∧
    index_sub (index_of_int ((12 : Nat) : Int)) 6 = 12 - 6 :=
  ⟨(exact_crop_in_bounds reference_external
    { param_ := { data_shape := { d0 := 3, d1 := 5, d2 := 6 }, rand_crop := true } }
    (test_image 10 12) (counting_engine 9) (by decide) (by decide) (by decide)).1,
   (exact_crop_in_bounds reference_external
    { param_ := { data_shape := { d0 := 3, d1 := 5, d2 := 6 }, rand_crop := true } }
    (test_image 10 12) (counting_engine 9) (by decide) (by decide) (by decide)).2.1⟩

/-! ## Lemmas on decimal text -/

theorem digitChar_facts (k : Nat) (hk : k < 10) :
    (Nat.digitChar k).isDigit = true ∧ is_space (Nat.digitChar k) = false ∧
    Nat.digitChar k ≠ ',' ∧ Nat.digitChar k ≠ '-' ∧ Nat.digitChar k ≠ '+' ∧
    Nat.digitChar k ≠ Char.ofNat 0 ∧ digit_value (Nat.digitChar k) = k := by
  interval_cases k <;> decide

theorem toDigitsCore_chars (fuel : Nat) :
    ∀ (n : Nat) (ds : List Char) (c : Char), c ∈ Nat.toDigitsCore 10 fuel n ds →
      (∃ k, k < 10 ∧ c = Nat.digitChar k) ∨ c ∈ ds := by
  induction fuel with
  | zero =>
    intro n ds c hc
    exact Or.inr hc
  | succ fuel ih =>
    intro n ds c hc
    unfold Nat.toDigitsCore at hc
    simp only at hc
    have hd : ∀ c, c ∈ Nat.digitChar (n % 10) :: ds →
        (∃ k, k < 10 ∧ c = Nat.digitChar k) ∨ c ∈ ds := by
      intro c hc
      rcases List.mem_cons.mp hc with h | h
      · exact Or.inl ⟨n % 10, Nat.mod_lt _ (by decide), h⟩
      · exact Or.inr h
    split at hc
    · exact hd c hc
    · rcases ih _ _ c hc with h | h
      · exact Or.inl h
      · exact hd c h

theorem toDigitsCore_ne_nil (fuel : Nat) :
    ∀ (n : Nat) (ds : List Char), (0 < fuel ∨ ds ≠ []) → Nat.toDigitsCore 10 fuel n ds ≠ [] := by
  induction fuel with
  | zero =>
    intro n ds h
    rcases h with h | h
    · omega
    · simpa [Nat.toDigitsCore] using h
  | succ fuel ih =>
    intro n ds _
    unfold Nat.toDigitsCore
    simp only
    split
    · simp
    · exact ih _ _ (Or.inr (by simp))

theorem toDigitsCore_value (fuel : Nat) :
    ∀ (n : Nat) (ds : List Char), n < fuel →
      (Nat.toDigitsCore 10 fuel n ds).foldl (fun acc c => 10 * acc + digit_value c) 0
        = ds.foldl (fun acc c => 10 * acc + digit_value c) n := by
  induction fuel with
  | zero =>
    intro n ds h
    omega
  | succ fuel ih =>
    intro n ds h
    have hv := (digitChar_facts (n % 10) (Nat.mod_lt _ (by decide))).2.2.2.2.2.2
    unfold Nat.toDigitsCore
    simp only
    split
    · rename_i h0
      simp only [List.foldl_cons, hv]
      congr 1
      omega
    · rename_i h0
      rw [ih (n / 10) _ (by omega)]
      simp only [List.foldl_cons, hv]
      congr 1
      omega

theorem toDigits_chars (n : Nat) (c : Char) (hc : c ∈ Nat.toDigits 10 n) :
    ∃ k, k < 10 ∧ c = Nat.digitChar k := by
  rcases toDigitsCore_chars (n + 1) n [] c hc with h | h
  · exact h
  · cases h

theorem toDigits_ne_nil (n : Nat) : Nat.toDigits 10 n ≠ [] :=
  toDigitsCore_ne_nil (n + 1) n [] (Or.inl (by omega))

theorem toDigits_value (n : Nat) :
    (Nat.toDigits 10 n).foldl (fun acc c => 10 * acc + digit_value c) 0 = n := by
  have h := toDigitsCore_value (n + 1) n [] (by omega)
  simpa [Nat.toDigits] using h

theorem toDigits_takeWhile (n : Nat) :
    (Nat.toDigits 10 n).takeWhile Char.isDigit = Nat.toDigits 10 n := by
  rw [List.takeWhile_eq_self_iff]
  intro c hc
  obtain ⟨k, hk, rfl⟩ := toDigits_chars n c hc
  exact (digitChar_facts k hk).1

theorem decimal_text_chars (z : Int) (c : Char) (hc : c ∈ decimal_text z) :
    c ≠ ',' ∧ c ≠ Char.ofNat 0 := by
  have hd : ∀ c, c ∈ Nat.toDigits 10 z.natAbs → c ≠ ',' ∧ c ≠ Char.ofNat 0 := by
    intro c hc
    obtain ⟨k, hk, rfl⟩ := toDigits_chars _ c hc
    exact ⟨(digitChar_facts k hk).2.2.1, (digitChar_facts k hk).2.2.2.2.2.1⟩
  unfold decimal_text at hc
  split at hc
  · rcases List.mem_cons.mp hc with h | h
    · subst h
      exact ⟨by decide, by decide⟩
    · exact hd c h
  · exact hd c hc

theorem decimal_text_ne_nil (z : Int) : decimal_text z ≠ [] := by
  unfold decimal_text
  split
  · simp
  · exact toDigits_ne_nil _

theorem atoi_decimal_text (z : Int) (hlo : -2147483648 ≤ z) (hhi : z ≤ 2147483647) :
    atoi (decimal_text z) = some z := by
  unfold decimal_text
  split
  · rename_i hneg
    have hsp : is_space '-' = false := by decide
    unfold atoi
    simp only [List.dropWhile_cons, hsp, List.head?_cons, List.tail_cons, true_or, if_true,
      toDigits_takeWhile, toDigits_value, Bool.false_eq_true, if_false]
    have hz : -((z.natAbs : Nat) : Int) = z := by omega
    rw [hz, if_pos ⟨hlo, hhi⟩]
  · rename_i hneg
    obtain ⟨d, rest, hdr⟩ := List.exists_cons_of_ne_nil (toDigits_ne_nil z.natAbs)
    have hdmem : d ∈ Nat.toDigits 10 z.natAbs := by rw [hdr]; exact List.mem_cons_self _ _
    obtain ⟨k, hk, hdk⟩ := toDigits_chars _ d hdmem
    have hf := digitChar_facts k hk
    rw [← hdk] at hf
    have htw := toDigits_takeWhile z.natAbs
    have hval := toDigits_value z.natAbs
    rw [hdr] at htw hval
    unfold atoi
    rw [hdr]
    have h1 : ¬ (some d = some '-') := by
      intro h
      exact hf.2.2.2.1 (Option.some.inj h)
    have h2 : ¬ (some d = some '+') := by
      intro h
      exact hf.2.2.2.2.1 (Option.some.inj h)
    simp only [List.dropWhile_cons, hf.2.1, List.head?_cons, h1, h2, or_self, if_false,
      Bool.false_eq_true, htw, hval]
    have hz : ((z.natAbs : Nat) : Int) = z := by omega
    rw [hz, if_pos ⟨hlo, hhi⟩]
/-! ## Lemmas on `Init` -/

theorem takeWhile_append_stop (p : Char → Bool) (l r : List Char) (c : Char)
    (hl : ∀ a ∈ l, p a = true) (hc : p c = false) : (l ++ c :: r).takeWhile p = l := by
  induction l with
  | nil => simp [List.takeWhile, hc]
  | cons a l ih =>
    have ha : p a = true := hl a (List.mem_cons_self _ _)
    have ih2 := ih (fun b hb => hl b (List.mem_cons_of_mem _ hb))
    simp [List.takeWhile, ha, ih2]

theorem rotate_list_loop_nil (fuel : Nat) (buf : Option (List Char)) (acc : List Int) :
    rotate_list_loop fuel [] buf acc = .ok acc := by
  cases fuel <;> simp [rotate_list_loop]

theorem decimal_text_not_comma (z : Int) :
    ∀ a ∈ decimal_text z, (decide (a ≠ ',')) = true := by
  intro a ha
  exact decide_eq_true (decimal_text_chars z a ha).1

theorem rotate_list_loop_step (fuel : Nat) (z : Int) (rest : List Char)
    (buf : Option (List Char)) (acc : List Int)
    (hrest : rest = [] ∨ ∃ r, rest = ',' :: r)
    (hlo : -2147483648 ≤ z) (hhi : z ≤ 2147483647) (hlen : (decimal_text z).length < 128) :
    rotate_list_loop (fuel + 1) (decimal_text z ++ rest) buf acc
      = rotate_list_loop fuel (rest.drop 1) (some (decimal_text z)) (acc ++ [z]) := by
  have hne : decimal_text z ++ rest ≠ [] := by
    simp [decimal_text_ne_nil z]
  have htok : (decimal_text z ++ rest).takeWhile (fun c => decide (c ≠ ',')) = decimal_text z := by
    rcases hrest with h | ⟨r, h⟩
    · subst h
      rw [List.append_nil, List.takeWhile_eq_self_iff]
      exact decimal_text_not_comma z
    · subst h
      exact takeWhile_append_stop _ _ _ _ (decimal_text_not_comma z) (by decide)
  have hscan : sscanf_until_comma (decimal_text z ++ rest) buf = some (some (decimal_text z)) := by
    unfold sscanf_until_comma
    rw [htok, if_neg (decimal_text_ne_nil z), if_pos hlen]
  have hdrop : (decimal_text z ++ rest).drop ((decimal_text z).length + 1) = rest.drop 1 := by
    rw [← List.drop_drop, List.drop_left]
  rw [rotate_list_loop, if_neg hne, hscan]
  simp only [atoi_decimal_text z hlo hhi, hdrop]

theorem comma_join_cons (t : List Char) (ts : List (List Char)) :
    comma_join (t :: ts) = t ++ (if ts = [] then [] else ',' :: comma_join ts) := by
  cases ts with
  | nil => simp [comma_join]
  | cons u us => simp [comma_join]

theorem rotate_list_loop_text (angles : List Int) :
    ∀ (fuel : Nat) (buf : Option (List Char)) (acc : List Int),
      (comma_join (angles.map decimal_text)).length ≤ fuel →
      (∀ z ∈ angles, -2147483648 ≤ z ∧ z ≤ 2147483647) →
      (∀ z ∈ angles, (decimal_text z).length < 128) →
      rotate_list_loop fuel (comma_join (angles.map decimal_text)) buf acc
        = .ok (acc ++ angles) := by
  induction angles with
  | nil =>
    intro fuel buf acc _ _ _
    simp [comma_join, rotate_list_loop_nil]
  | cons z zs ih =>
    intro fuel buf acc hfuel hrange hlen
    have hz := hrange z (List.mem_cons_self _ _)
    have hzl := hlen z (List.mem_cons_self _ _)
    rw [List.map_cons, comma_join_cons] at hfuel ⊢
    have hpos : 0 < (decimal_text z).length := List.length_pos.mpr (decimal_text_ne_nil z)
    rw [List.length_append] at hfuel
    obtain ⟨f, rfl⟩ : ∃ f, fuel = f + 1 := ⟨fuel - 1, by omega⟩
    rw [rotate_list_loop_step f z _ buf acc
      (by by_cases h : List.map decimal_text zs = []
          · exact Or.inl (by simp [h])
          · exact Or.inr ⟨comma_join (List.map decimal_text zs), by simp [h]⟩) hz.1 hz.2 hzl]
    by_cases h : List.map decimal_text zs = []
    · have hzs : zs = [] := List.map_eq_nil_iff.mp h
      subst hzs
      simp [rotate_list_loop_nil]
    · simp only [h, if_false, List.drop_succ_cons, List.drop_zero] at hfuel ⊢
      rw [ih f _ _ (by simp only [List.length_cons] at hfuel; omega)
        (fun y hy => hrange y (List.mem_cons_of_mem _ hy))
        (fun y hy => hlen y (List.mem_cons_of_mem _ hy))]
      simp

theorem comma_join_chars (ts : List (List Char)) :
    ∀ c ∈ comma_join ts, c = ',' ∨ ∃ t ∈ ts, c ∈ t := by
  induction ts with
  | nil => intro c hc; simp [comma_join] at hc
  | cons t ts ih =>
    intro c hc
    rw [comma_join_cons] at hc
    rcases List.mem_append.mp hc with h | h
    · exact Or.inr ⟨t, List.mem_cons_self _ _, h⟩
    · split at h
      · cases h
      · rcases List.mem_cons.mp h with h2 | h2
        · exact Or.inl h2
        · rcases ih c h2 with h3 | ⟨u, hu, hcu⟩
          · exact Or.inl h3
          · exact Or.inr ⟨u, List.mem_cons_of_mem _ hu, hcu⟩

theorem c_str_rotate_list_text (angles : List Int) :
    c_str (rotate_list_text angles) = comma_join (angles.map decimal_text) := by
  unfold c_str rotate_list_text
  rw [List.takeWhile_eq_self_iff]
  intro c hc
  apply decide_eq_true
  rcases comma_join_chars _ c hc with h | ⟨t, ht, hct⟩
  · subst h
    decide
  · obtain ⟨z, _, rfl⟩ := List.mem_map.mp ht
    exact (decimal_text_chars z c hct).2

theorem parse_rotate_list_text (angles acc : List Int)
    (hrange : ∀ z ∈ angles, -2147483648 ≤ z ∧ z ≤ 2147483647)
    (hlen : ∀ z ∈ angles, (decimal_text z).length < 128) :
    parse_rotate_list (rotate_list_text angles) acc = .ok (acc ++ angles) := by
  unfold parse_rotate_list
  rw [c_str_rotate_list_text]
  exact rotate_list_loop_text angles _ none acc (le_refl _) hrange hlen

theorem init_rotate_list_skip (l : List (String × String)) (acc : List Int)
    (h : ∀ kv ∈ l, c_str kv.1 ≠ "rotate_list".data) : init_rotate_list l acc = .ok acc := by
  induction l with
  | nil => rfl
  | cons kv l ih =>
    rw [init_rotate_list, if_neg (h kv (List.mem_cons_self _ _))]
    exact ih (fun kv2 h2 => h kv2 (List.mem_cons_of_mem _ h2))

theorem init_rotate_list_append (l1 l2 : List (String × String)) (acc : List Int)
    (h : ∀ kv ∈ l1, c_str kv.1 ≠ "rotate_list".data) :
    init_rotate_list (l1 ++ l2) acc = init_rotate_list l2 acc := by
  induction l1 with
  | nil => rfl
  | cons kv l ih =>
    rw [List.cons_append, init_rotate_list, if_neg (h kv (List.mem_cons_self _ _))]
    exact ih (fun kv2 h2 => h kv2 (List.mem_cons_of_mem _ h2))

theorem rotate_list_loop_fuel (fuel : Nat) :
    ∀ (val : List Char) (buf : Option (List Char)) (acc : List Int), val.length ≤ fuel →
      rotate_list_loop (fuel + 1) val buf acc = rotate_list_loop fuel val buf acc := by
  induction fuel with
  | zero =>
    intro val buf acc h
    have hv : val = [] := List.length_eq_zero.mp (by omega)
    subst hv
    simp [rotate_list_loop]
  | succ fuel ih =>
    intro val buf acc h
    rw [rotate_list_loop, rotate_list_loop]
    by_cases hv : val = []
    · simp [hv]
    · simp only [hv, if_false]
      cases hs : sscanf_until_comma val buf with
      | none => rfl
      | some b =>
        cases b with
        | none => rfl
        | some b =>
          simp only
          cases ha : atoi b with
          | none => rfl
          | some angle =>
            simp only
            apply ih
            have hpos : 0 < val.length := List.length_pos.mpr hv
            rw [List.length_drop]
            omega

/-! ## The parsing of `rotate_list` (C14) -/

/-- C14: for every list of integers, each within the range of `int` and with a decimal
text shorter than 128 characters, `Init` on a fresh augmenter (empty angle list) with
the key `rotate_list` set to the decimal renderings joined by single commas, among
other pairs none of which has that key, succeeds and leaves the angle list equal to
the given list, same elements in the same order; the text of `[0, 90, 180, 270]` is
"0,90,180,270". With no pair of key `rotate_list` the angle list stays empty. The
parameter library is only assumed to accept the declared fields. -/
theorem Init_rotate_list (lib : ParameterLibrary) (aug : DefaultImageAugmenter)
    (pre post : List (String × String)) (angles : List Int) (p : DefaultImageAugmentParam)
    (hfresh : aug.rotate_list_ = [])
    (hpre : ∀ kv ∈ pre, c_str kv.1 ≠ "rotate_list".data)
    (hpost : ∀ kv ∈ post, c_str kv.1 ≠ "rotate_list".data)
    (hlib : lib.set_fields
      ((pre ++ ("rotate_list", rotate_list_text angles) :: post).filter
        (fun kv => kv.1 ∈ field_names)) = some p)
    (hrange : ∀ z ∈ angles, -2147483648 ≤ z ∧ z ≤ 2147483647)
    (hlen : ∀ z ∈ angles, (decimal_text z).length < 128) :
    aug.Init lib (pre ++ ("rotate_list", rotate_list_text angles) :: post)
      = .ok { param_ := p, rotate_list_ := angles } ∧
    rotate_list_text [0, 90, 180, 270] = "0,90,180,270" ∧
    (∀ (kwargs : List (String × String)) (q : DefaultImageAugmentParam),
      (∀ kv ∈ kwargs, c_str kv.1 ≠ "rotate_list".data) →
      lib.set_fields (kwargs.filter (fun kv => kv.1 ∈ field_names)) = some q →
      aug.Init lib kwargs = .ok { param_ := q, rotate_list_ := [] }) := by
  refine ⟨?_, rfl, ?_⟩
  · have hkey : ¬ ("rotate_list" ∈ field_names) := by decide
    have hmatch : c_str "rotate_list" = "rotate_list".data := by decide
    unfold DefaultImageAugmenter.Init InitAllowUnknown
    rw [hlib]
    simp only [List.filter_append, List.filter_cons, hkey, not_false_eq_true, decide_True,
      if_true]
    rw [init_rotate_list_append _ _ _
      (fun kv hkv => hpre kv (List.mem_of_mem_filter hkv)), init_rotate_list, if_pos hmatch,
      hfresh, parse_rotate_list_text angles [] hrange hlen]
    simp only [List.nil_append]
    rw [init_rotate_list_skip _ _ (fun kv hkv => hpost kv (List.mem_of_mem_filter hkv))]
  · intro kwargs q hk hq
    unfold DefaultImageAugmenter.Init InitAllowUnknown
    rw [hq]
    simp only
    rw [init_rotate_list_skip _ _ (fun kv hkv => hk kv (List.mem_of_mem_filter hkv)), hfresh]

/-- Witness of C14: the value "0,90,180,270" between a declared field and another
unrecognised key gives the angle list `[0, 90, 180, 270]`. -/
theorem Init_rotate_list_witness :
    DefaultImageAugmenter.Init reference_library
        { param_ := { data_shape := { d0 := 3, d1 := 2, d2 := 2 } } }
        [("data_shape", "(3,2,2)"), ("rotate_list", "0,90,180,270"), ("aug_seed", "0")]
      = .ok { param_ := { data_shape := { d0 := 3, d1 := 2, d2 := 2 } }
              rotate_list_ := [0, 90, 180, 270] } :=
  (Init_rotate_list reference_library
    { param_ := { data_shape := { d0 := 3, d1 := 2, d2 := 2 } } }
    [("data_shape", "(3,2,2)")] [("aug_seed", "0")] [0, 90, 180, 270]
    { data_shape := { d0 := 3, d1 := 2, d2 := 2 } }
    rfl (by decide) (by decide) rfl (by decide) (by decide)).1

end mxnet.io
